import Mathlib

/-!
Verification development for the NREGS-MP report pipelines
(`area_officer_inspection.py`, `work_management.py`, `zero_muster.py`).

The three modules share one aggregation shape: fetch a JSON payload with a
`results` list of per-entity dicts, round every float field to 2 decimals
in place, sort by a pipeline metric, optionally run one adjacent-swap
tie-break pass (inspection only), build a name-to-rank dict, extract
top/bottom entries, and compute rounded field means.

Embedding choices:
* a Python dict record is a `List (String × Value)` with first-match lookup;
* Python numbers are exact: `int` is `Int`, `float` is `ℚ` (the spec states
  the rounding contract in exact decimal terms);
* code that can raise runs in `Except PyErr`; a Python `return None` is
  modelled as `Except.ok none`;
* in-place mutation of the caller's record dicts is modelled by explicit
  state passing: a separate `...Post` function returns the payload as the
  caller observes it after the call.
-/

namespace Nrega

/-- A JSON scalar as the pipelines see it: Python `int`, `float` or `str`.
Floats are modelled as exact rationals. -/
inductive Value where
  | int : Int → Value
  | float : ℚ → Value
  | str : String → Value
deriving DecidableEq

/-- One entity's record: a Python dict, field name to value. -/
abbrev Record := List (String × Value)

/-- Exceptions the aggregation code can raise. -/
inductive PyErr where
  | keyError : String → PyErr
  | indexError : PyErr
  | statisticsError : PyErr
  | typeError : PyErr
deriving DecidableEq

/-- Dict lookup, `r[k]` / `r.get(k)`: first entry with the given key. -/
def lookupVal (r : Record) (k : String) : Option Value :=
  (r.find? (fun p => p.1 == k)).map Prod.snd

/-- Python `r[k]`: raises `KeyError` when the key is absent. -/
def getItemE (r : Record) (k : String) : Except PyErr Value :=
  match lookupVal r k with
  | some v => .ok v
  | none => .error (.keyError k)

/-- Numeric reading of a value; `none` on strings. -/
def numOf? : Value → Option ℚ
  | .int n => some (n : ℚ)
  | .float q => some q
  | .str _ => none

/-- Model of `r.get(k, d)` read as a number, as the sort keys and the
average comprehensions use it (metric fields are numeric in this data). -/
def getNumD (r : Record) (k : String) (d : ℚ) : ℚ :=
  match lookupVal r k with
  | some v => (numOf? v).getD d
  | none => d

/-- Python `==` between two scalar values: numbers compare by value across
`int`/`float`, strings compare as strings, mixed kinds are unequal. -/
def valEq : Value → Value → Bool
  | .str a, .str b => a == b
  | a, b =>
    match numOf? a, numOf? b with
    | some x, some y => decide (x = y)
    | _, _ => false

/-- The record has the key, with a numeric value. -/
def hasNumKey (r : Record) (k : String) : Bool :=
  match lookupVal r k with
  | some v => (numOf? v).isSome
  | none => false

/-- Round-half-to-even to an integer, the rule Python's `round` follows. -/
def roundHalfEven (q : ℚ) : ℤ :=
  let f := Rat.floor q
  let r := q - f
  if r < 1/2 then f
  else if 1/2 < r then f + 1
  else if f % 2 = 0 then f else f + 1

/-- Model of `round(x, 2)`. -/
def round2 (q : ℚ) : ℚ := (roundHalfEven (q * 100) : ℚ) / 100

/-- The per-field normalization step: floats are rounded to 2 decimals,
ints and strings are untouched (`isinstance(value, float)`). -/
def normVal : Value → Value
  | .float q => .float (round2 q)
  | v => v

/-- Normalize one record, as the in-place loop does field by field. -/
def normalizeRecord (r : Record) : Record :=
  r.map (fun p => (p.1, normVal p.2))

/-- Normalize a whole `results` collection. -/
def normalizeRecords (rs : List Record) : List Record :=
  rs.map normalizeRecord

/- ### Basic lemmas about rounding and normalization -/

theorem ratFloor_eq_floor (q : ℚ) : (Rat.floor q : ℤ) = ⌊q⌋ := by
  rw [Rat.floor_def', Rat.floor_def]

theorem roundHalfEven_intCast (n : ℤ) : roundHalfEven (n : ℚ) = n := by
  unfold roundHalfEven
  rw [ratFloor_eq_floor, Int.floor_intCast]
  norm_num

theorem round2_idem (q : ℚ) : round2 (round2 q) = round2 q := by
  unfold round2
  rw [div_mul_cancel₀ _ (by norm_num : (100 : ℚ) ≠ 0), roundHalfEven_intCast]

theorem normVal_idem (v : Value) : normVal (normVal v) = normVal v := by
  cases v <;> simp [normVal, round2_idem]

theorem normalizeRecord_idem (r : Record) :
    normalizeRecord (normalizeRecord r) = normalizeRecord r := by
  unfold normalizeRecord
  rw [List.map_map]
  apply List.map_congr_left
  intro p _
  simp [normVal_idem]

theorem normalizeRecords_idem (rs : List Record) :
    normalizeRecords (normalizeRecords rs) = normalizeRecords rs := by
  unfold normalizeRecords
  rw [List.map_map]
  apply List.map_congr_left
  intro r _
  simp [normalizeRecord_idem]

theorem lookupVal_normalizeRecord (r : Record) (k : String) :
    lookupVal (normalizeRecord r) k = (lookupVal r k).map normVal := by
  unfold lookupVal normalizeRecord
  rw [List.find?_map]
  have hp : ((fun p => p.1 == k) ∘ fun p : String × Value => (p.1, normVal p.2)) =
      (fun p : String × Value => p.1 == k) := rfl
  rw [hp]
  cases h : r.find? (fun p : String × Value => p.1 == k) <;> simp [h]

theorem numOf?_isSome_normVal (v : Value) :
    (numOf? (normVal v)).isSome = (numOf? v).isSome := by
  cases v <;> simp [normVal, numOf?]

theorem hasNumKey_normalizeRecord (r : Record) (k : String) :
    hasNumKey (normalizeRecord r) k = hasNumKey r k := by
  unfold hasNumKey
  rw [lookupVal_normalizeRecord]
  cases lookupVal r k <;> simp [numOf?_isSome_normVal]

/- ### Sorting (Python `sorted` is a stable sort) -/

/-- Python `sorted(l, key=key, reverse=True)`: stable, descending by key. -/
def sortDescBy (key : Record → ℚ) (l : List Record) : List Record :=
  List.insertionSort (fun a b => key b ≤ key a) l

/-- Python `sorted(l, key=key)`: stable, ascending by key. -/
def sortAscBy (key : Record → ℚ) (l : List Record) : List Record :=
  List.insertionSort (fun a b => key a ≤ key b) l

/-- Inspection primary metric, `x.get('total_visit_marks', 0)`. -/
def inspPrimary (r : Record) : ℚ := getNumD r "total_visit_marks" 0

/-- Inspection secondary metric, `dpc_ws_visited + adpc_ws_visited`. -/
def inspSecondary (r : Record) : ℚ :=
  getNumD r "dpc_ws_visited" 0 + getNumD r "adpc_ws_visited" 0

/-- Work-management metric, `x.get('work_management_total', 0)`. -/
def workTotal (r : Record) : ℚ := getNumD r "work_management_total" 0

/-- Zero-muster metric, `x.get('zero_attendance_percentage', 100)`. -/
def zeroPct (r : Record) : ℚ := getNumD r "zero_attendance_percentage" 100

theorem sortDescBy_perm (key : Record → ℚ) (l : List Record) :
    (sortDescBy key l).Perm l :=
  List.perm_insertionSort _ l

theorem sortAscBy_perm (key : Record → ℚ) (l : List Record) :
    (sortAscBy key l).Perm l :=
  List.perm_insertionSort _ l

theorem sortDescBy_sorted (key : Record → ℚ) (l : List Record) :
    List.Sorted (fun a b => key b ≤ key a) (sortDescBy key l) := by
  haveI : IsTotal Record (fun a b => key b ≤ key a) :=
    ⟨fun a b => le_total (key b) (key a)⟩
  haveI : IsTrans Record (fun a b => key b ≤ key a) :=
    ⟨fun _ _ _ h1 h2 => le_trans h2 h1⟩
  exact List.sorted_insertionSort _ l

theorem sortAscBy_sorted (key : Record → ℚ) (l : List Record) :
    List.Sorted (fun a b => key a ≤ key b) (sortAscBy key l) := by
  haveI : IsTotal Record (fun a b => key a ≤ key b) :=
    ⟨fun a b => le_total (key a) (key b)⟩
  haveI : IsTrans Record (fun a b => key a ≤ key b) :=
    ⟨fun _ _ _ h1 h2 => le_trans h1 h2⟩
  exact List.sorted_insertionSort _ l

theorem sortDescBy_headI_max (key : Record → ℚ) (l : List Record)
    (r : Record) (hr : r ∈ l) : key r ≤ key (sortDescBy key l).headI := by
  have hmem : r ∈ sortDescBy key l := (sortDescBy_perm key l).mem_iff.mpr hr
  have hs := sortDescBy_sorted key l
  cases hsl : sortDescBy key l with
  | nil => rw [hsl] at hmem; cases hmem
  | cons h t =>
    rw [hsl] at hmem hs
    rcases List.mem_cons.mp hmem with rfl | hrt
    · simp
    · exact (List.sorted_cons.mp hs).1 r hrt

theorem sortAscBy_headI_min (key : Record → ℚ) (l : List Record)
    (r : Record) (hr : r ∈ l) : key (sortAscBy key l).headI ≤ key r := by
  have hmem : r ∈ sortAscBy key l := (sortAscBy_perm key l).mem_iff.mpr hr
  have hs := sortAscBy_sorted key l
  cases hsl : sortAscBy key l with
  | nil => rw [hsl] at hmem; cases hmem
  | cons h t =>
    rw [hsl] at hmem hs
    rcases List.mem_cons.mp hmem with rfl | hrt
    · simp
    · exact (List.sorted_cons.mp hs).1 r hrt

/- ### The inspection tie-break pass (lines 79–85 / 155–161) -/

/-- Swap condition of the tie-break pass: equal primary metric and the
lower element has the strictly larger secondary metric. -/
def tieCond (a b : Record) : Bool :=
  decide (inspPrimary a = inspPrimary b) && decide (inspSecondary a < inspSecondary b)

/-- One sweep of the in-place loop, with `a` the element currently at
position `i`: on `tieCond` the pair swaps and `a` is carried on, otherwise
`a` is placed and the next element is carried. -/
def tieGo (a : Record) : List Record → List Record
  | [] => [a]
  | b :: rest => if tieCond a b then b :: tieGo a rest else a :: tieGo b rest

/-- The single adjacent-pair pass `for i in range(len(l) - 1): ...`. -/
def tieBreakPass : List Record → List Record
  | [] => []
  | a :: rest => tieGo a rest

/-- Raw secondary metric as the source computes it inside the pass:
`d['dpc_ws_visited'] + d['adpc_ws_visited']`, raising on absent keys. -/
def secondaryE (r : Record) : Except PyErr ℚ := do
  let v1 ← getItemE r "dpc_ws_visited"
  let v2 ← getItemE r "adpc_ws_visited"
  match numOf? v1, numOf? v2 with
  | some a, some b => pure (a + b)
  | _, _ => .error .typeError

/-- Raw swap condition: `l[i]['total_visit_marks'] == l[i+1]['total_visit_marks']`
then the secondary comparison, all with raising key access. -/
def tieCondE (a b : Record) : Except PyErr Bool := do
  let pa ← getItemE a "total_visit_marks"
  let pb ← getItemE b "total_visit_marks"
  if valEq pa pb then do
    let sa ← secondaryE a
    let sb ← secondaryE b
    pure (decide (sa < sb))
  else
    pure false

/-- Raising version of one sweep of the pass. -/
def tieGoE (a : Record) : List Record → Except PyErr (List Record)
  | [] => pure [a]
  | b :: rest => do
    let c ← tieCondE a b
    if c then do
      let t ← tieGoE a rest
      pure (b :: t)
    else do
      let t ← tieGoE b rest
      pure (a :: t)

/-- Raising version of the pass, the exact loop of the source. -/
def tieBreakPassE : List Record → Except PyErr (List Record)
  | [] => pure []
  | a :: rest => tieGoE a rest

/-- A record that carries all three fields the pass indexes, numerically. -/
def inspWF (r : Record) : Bool :=
  hasNumKey r "total_visit_marks" && hasNumKey r "dpc_ws_visited" &&
    hasNumKey r "adpc_ws_visited"

/- ### Lemmas about the tie-break pass -/

theorem exceptBind_ok {α β : Type} (a : α) (f : α → Except PyErr β) :
    (Except.ok a >>= f) = f a := rfl

theorem exceptPure_eq {α : Type} (a : α) : (pure a : Except PyErr α) = .ok a := rfl

theorem tieCond_eq_primary {a b : Record} (h : tieCond a b = true) :
    inspPrimary a = inspPrimary b := by
  unfold tieCond at h
  exact of_decide_eq_true (Bool.and_elim_left h)

theorem tieCond_of_ne {a b : Record} (h : ¬ inspPrimary a = inspPrimary b) :
    tieCond a b = false := by
  unfold tieCond
  simp [h]

theorem tieGo_perm (a : Record) (l : List Record) : (tieGo a l).Perm (a :: l) := by
  induction l generalizing a with
  | nil => simp [tieGo]
  | cons b rest ih =>
    unfold tieGo
    by_cases h : tieCond a b = true
    · rw [if_pos h]
      exact ((ih a).cons b).trans (List.Perm.swap a b rest)
    · rw [if_neg h]
      exact (ih b).cons a

theorem tieBreakPass_perm (l : List Record) : (tieBreakPass l).Perm l := by
  cases l with
  | nil => simp [tieBreakPass]
  | cons a rest => exact tieGo_perm a rest

theorem tieBreakPass_length (l : List Record) :
    (tieBreakPass l).length = l.length :=
  (tieBreakPass_perm l).length_eq

theorem tieBreakPass_ne_nil {l : List Record} (h : l ≠ []) :
    tieBreakPass l ≠ [] := by
  intro hc
  have hlen := tieBreakPass_length l
  rw [hc] at hlen
  exact h (List.length_eq_zero.mp hlen.symm)

theorem tieGo_map_primary (a : Record) (l : List Record) :
    (tieGo a l).map inspPrimary = inspPrimary a :: l.map inspPrimary := by
  induction l generalizing a with
  | nil => simp [tieGo]
  | cons b rest ih =>
    unfold tieGo
    by_cases h : tieCond a b = true
    · rw [if_pos h]
      have hp := tieCond_eq_primary h
      simp [ih, hp]
    · rw [if_neg h]
      simp [ih]

theorem tieBreakPass_map_primary (l : List Record) :
    (tieBreakPass l).map inspPrimary = l.map inspPrimary := by
  cases l with
  | nil => rfl
  | cons a rest => exact tieGo_map_primary a rest

theorem headI_map (f : Record → ℚ) (l : List Record) (h : l ≠ []) :
    (l.map f).headI = f l.headI := by
  cases l with
  | nil => exact absurd rfl h
  | cons a rest => rfl

theorem tieBreakPass_headI_primary {l : List Record} (h : l ≠ []) :
    inspPrimary (tieBreakPass l).headI = inspPrimary l.headI := by
  have h2 := tieBreakPass_ne_nil h
  have hm := congrArg List.headI (tieBreakPass_map_primary l)
  rwa [headI_map _ _ h2, headI_map _ _ h] at hm

theorem tieGo_append (x c : Record) (l1 rest : List Record)
    (h : ∀ w ∈ x :: l1, tieCond w c = false) :
    tieGo x (l1 ++ c :: rest) = tieGo x l1 ++ tieGo c rest := by
  induction l1 generalizing x with
  | nil =>
    have hx := h x (List.mem_cons_self x [])
    simp only [List.nil_append, tieGo]
    rw [hx]
    simp
  | cons y l1' ih =>
    have hxy : ∀ w ∈ x :: l1', tieCond w c = false := by
      intro w hw
      rcases List.mem_cons.mp hw with rfl | hw'
      · exact h w (List.mem_cons_self w _)
      · exact h w (List.mem_cons_of_mem _ (List.mem_cons_of_mem _ hw'))
    have hyy : ∀ w ∈ y :: l1', tieCond w c = false := by
      intro w hw
      exact h w (List.mem_cons_of_mem _ hw)
    by_cases hc : tieCond x y = true
    · simp only [List.cons_append, tieGo, if_pos hc, List.append_eq, ih x hxy]
    · simp only [List.cons_append, tieGo, if_neg hc, List.append_eq, ih y hyy]

/-- An isolated adjacent tie (no neighbouring record shares the primary
metric) with the lower record holding the strictly larger secondary metric
is swapped by the pass, and nothing else around it moves. -/
theorem tieBreakPass_isolated_pair (l1 l2 : List Record) (a b : Record)
    (hab : inspPrimary a = inspPrimary b)
    (hsec : inspSecondary a < inspSecondary b)
    (h1 : ∀ w ∈ l1, ¬ inspPrimary w = inspPrimary a)
    (h2 : ∀ w ∈ l2, ¬ inspPrimary w = inspPrimary a) :
    tieBreakPass (l1 ++ a :: b :: l2) =
      tieBreakPass l1 ++ b :: a :: tieBreakPass l2 := by
  have hab' : tieCond a b = true := by
    unfold tieCond
    simp [hab, hsec]
  have hinner : tieGo a (b :: l2) = b :: a :: tieBreakPass l2 := by
    unfold tieGo
    rw [if_pos hab']
    congr 1
    cases l2 with
    | nil => simp [tieGo, tieBreakPass]
    | cons y l2' =>
      have hay : tieCond a y = false := by
        apply tieCond_of_ne
        intro hc
        exact h2 y (List.mem_cons_self y l2') hc.symm
      simp only [tieGo, tieBreakPass]
      rw [hay]
      simp
  cases l1 with
  | nil =>
    simpa [tieBreakPass] using hinner
  | cons x l1' =>
    have hcond : ∀ w ∈ x :: l1', tieCond w a = false := by
      intro w hw
      exact tieCond_of_ne (h1 w hw)
    show tieGo x (l1' ++ a :: b :: l2) = tieGo x l1' ++ b :: a :: tieBreakPass l2
    rw [tieGo_append x a l1' (b :: l2) hcond, hinner]

/- ### Bridge: the raising pass agrees with the pure pass on well-formed data -/

theorem getNumD_spec {r : Record} {k : String} (h : hasNumKey r k = true) (d : ℚ) :
    ∃ v, lookupVal r k = some v ∧ numOf? v = some (getNumD r k d) := by
  unfold hasNumKey at h
  unfold getNumD
  cases hl : lookupVal r k with
  | none => simp only [hl] at h; cases h
  | some v =>
    simp only [hl] at h ⊢
    cases hn : numOf? v with
    | none => simp only [hn, Option.isSome_none] at h; cases h
    | some q => exact ⟨v, rfl, by simp [hn]⟩

theorem valEq_of_num {u v : Value} {x y : ℚ} (hu : numOf? u = some x)
    (hv : numOf? v = some y) : valEq u v = decide (x = y) := by
  cases u <;> cases v <;>
    simp only [numOf?, Option.some.injEq, reduceCtorEq] at hu hv <;>
    simp [valEq, numOf?, hu, hv]

theorem inspWF_fields {r : Record} (h : inspWF r = true) :
    hasNumKey r "total_visit_marks" = true ∧ hasNumKey r "dpc_ws_visited" = true ∧
      hasNumKey r "adpc_ws_visited" = true := by
  unfold inspWF at h
  simp only [Bool.and_eq_true] at h
  exact ⟨h.1.1, h.1.2, h.2⟩

theorem secondaryE_of_wf {r : Record} (h : inspWF r = true) :
    secondaryE r = .ok (inspSecondary r) := by
  obtain ⟨-, h2, h3⟩ := inspWF_fields h
  obtain ⟨v1, hl1, hn1⟩ := getNumD_spec h2 0
  obtain ⟨v2, hl2, hn2⟩ := getNumD_spec h3 0
  unfold secondaryE getItemE
  rw [hl1, hl2]
  simp only [exceptBind_ok, hn1, hn2]
  rfl

theorem tieCondE_of_wf {a b : Record} (ha : inspWF a = true) (hb : inspWF b = true) :
    tieCondE a b = .ok (tieCond a b) := by
  obtain ⟨ha1, -, -⟩ := inspWF_fields ha
  obtain ⟨hb1, -, -⟩ := inspWF_fields hb
  obtain ⟨va, hla, hna⟩ := getNumD_spec ha1 0
  obtain ⟨vb, hlb, hnb⟩ := getNumD_spec hb1 0
  unfold tieCondE getItemE
  rw [hla, hlb]
  simp only [exceptBind_ok, valEq_of_num hna hnb]
  by_cases hp : getNumD a "total_visit_marks" 0 = getNumD b "total_visit_marks" 0
  · rw [if_pos (by simp [hp])]
    rw [secondaryE_of_wf ha, secondaryE_of_wf hb]
    simp only [exceptBind_ok, exceptPure_eq]
    unfold tieCond inspPrimary
    simp [hp]
  · rw [if_neg (by simp [hp])]
    unfold tieCond inspPrimary
    simp [hp, exceptPure_eq]

theorem tieGoE_of_wf {a : Record} {l : List Record} (ha : inspWF a = true)
    (hl : ∀ r ∈ l, inspWF r = true) : tieGoE a l = .ok (tieGo a l) := by
  induction l generalizing a with
  | nil => rfl
  | cons b rest ih =>
    have hb := hl b (List.mem_cons_self b rest)
    have hrest : ∀ r ∈ rest, inspWF r = true := fun r hr =>
      hl r (List.mem_cons_of_mem _ hr)
    unfold tieGoE
    rw [tieCondE_of_wf ha hb]
    simp only [exceptBind_ok]
    by_cases hc : tieCond a b = true
    · rw [if_pos hc]
      simp only [tieGo, if_pos hc]
      rw [ih ha hrest]
      rfl
    · rw [if_neg hc]
      simp only [tieGo, if_neg hc]
      rw [ih hb hrest]
      rfl

theorem tieBreakPassE_of_wf {l : List Record} (hl : ∀ r ∈ l, inspWF r = true) :
    tieBreakPassE l = .ok (tieBreakPass l) := by
  cases l with
  | nil => rfl
  | cons a rest =>
    exact tieGoE_of_wf (hl a (List.mem_cons_self a rest))
      (fun r hr => hl r (List.mem_cons_of_mem _ hr))

/- ### Rank dict, means, list access -/

/-- Python dict assignment `d[k] = v`: overwrite in place keeping insertion
order, append when the key is new. -/
def dictSet (d : List (Value × Nat)) (k : Value) (v : Nat) : List (Value × Nat) :=
  if d.any (fun p => p.1 == k) then
    d.map (fun p => if p.1 == k then (p.1, v) else p)
  else d ++ [(k, v)]

/-- The rank loop `for i, r in enumerate(sorted_l): ranks[name] = i + 1`,
resumed at rank `i` with accumulated dict `d`. -/
def buildRanksFrom (d : List (Value × Nat)) (i : Nat) :
    List Value → List (Value × Nat)
  | [] => d
  | n :: ns => buildRanksFrom (dictSet d n i) (i + 1) ns

/-- The name-to-rank dict built over a list of entity names. -/
def buildRanks (names : List Value) : List (Value × Nat) :=
  buildRanksFrom [] 1 names

/-- Reads `r['group_name']` of each record in order, raising `KeyError`
when absent. -/
def getNamesE : List Record → Except PyErr (List Value)
  | [] => pure []
  | r :: rs => do
    let n ← getItemE r "group_name"
    let ns ← getNamesE rs
    pure (n :: ns)

/-- The rank-dict construction over the sorted records (lines 88–90). -/
def buildRanksE (rs : List Record) : Except PyErr (List (Value × Nat)) := do
  let names ← getNamesE rs
  pure (buildRanks names)

/-- The record has the key (any value kind). -/
def hasKey (r : Record) (k : String) : Bool := (lookupVal r k).isSome

/-- Total read of `r['group_name']` for records known to carry it. -/
def nameD (r : Record) : Value := (lookupVal r "group_name").getD (.str "")

/-- Model of `statistics.mean`: raises `StatisticsError` on an empty list. -/
def meanE (l : List ℚ) : Except PyErr ℚ :=
  match l with
  | [] => .error .statisticsError
  | _ => .ok (l.sum / l.length)

/-- Arithmetic mean as the spec's AggregateSummary words it. -/
def specMean (l : List ℚ) : ℚ := l.sum / l.length

/-- Python `l[0]`: `IndexError` on an empty list. -/
def headE {α : Type} : List α → Except PyErr α
  | [] => .error .indexError
  | a :: _ => .ok a

/-- Python `l[-1]`: `IndexError` on an empty list. -/
def lastE {α : Type} (l : List α) : Except PyErr α :=
  match l.getLast? with
  | some a => .ok a
  | none => .error .indexError

/- ### The API payload -/

/-- The JSON payload a fetcher returns: the `results` collection plus the
optional scalar passthrough fields the three pipelines read. -/
structure ApiData where
  results? : Option (List Record)
  rangeStart? : Option String
  rangeEnd? : Option String
  stateAvgPrev? : Option ℚ
  stateAvgCurr? : Option ℚ
deriving DecidableEq

/-- The in-place float normalization of `data['results']` as the caller
observes the payload after an aggregator ran (lines 70–73 and twins). -/
def normalizeData (d : ApiData) : ApiData :=
  ⟨d.results?.map normalizeRecords, d.rangeStart?, d.rangeEnd?,
    d.stateAvgPrev?, d.stateAvgCurr?⟩

/- ### State aggregator outputs -/

/-- Output of `process_state_inspection_data`. -/
structure InspStateOut where
  top : Record
  bottom : Record
  averages : List (String × ℚ)
  ranks : List (Value × Nat)
  total : Nat
  rangeStart : String
  rangeEnd : String
deriving DecidableEq

/-- Output of `process_state_work_data`. -/
structure WorkStateOut where
  top : Record
  bottom : Record
  averages : List (String × ℚ)
  ranks : List (Value × Nat)
  total : Nat
deriving DecidableEq

/-- Output of `process_state_zero_muster_data`. -/
structure ZeroStateOut where
  top : Record
  bottom : Record
  averages : List (String × ℚ)
  ranks : List (Value × Nat)
  total : Nat
deriving DecidableEq

/-- Output of `process_district_inspection_data`. -/
structure InspDistrictOut where
  blocks : List Record
  totalBlocks : Nat
  averages : List (String × ℚ)
  highestName : Option Value
  highestMarks : ℚ
  lowestName : Option Value
  lowestMarks : ℚ
  rangeStart : String
  rangeEnd : String
deriving DecidableEq

/-- Output of `process_district_work_data`. -/
structure WorkDistrictOut where
  blocks : List Record
  totalBlocks : Nat
  averages : List (String × ℚ)
  highestName : Value
  highestMarks : ℚ
  lowestName : Value
  lowestMarks : ℚ
deriving DecidableEq

/-- Output of `process_district_zero_muster_data`. -/
structure ZeroDistrictOut where
  blocks : List Record
  totalBlocks : Nat
  averages : List (String × ℚ)
  bestName : Option Value
  bestPct : ℚ
  worstName : Option Value
  worstPct : ℚ
deriving DecidableEq

/- ### The six aggregators -/

/-- `process_state_inspection_data` (lines 53–127): guard, normalize, sort
descending by total marks, tie-break pass, rank dict, top/bottom, five
rounded averages, date-range passthrough. -/
def processStateInspection (data : Option ApiData) :
    Except PyErr (Option InspStateOut) :=
  match data with
  | none => .ok none
  | some d =>
    match d.results? with
    | none => .ok none
    | some rs0 => do
      let rs := normalizeRecords rs0
      let sorted ← tieBreakPassE (sortDescBy inspPrimary rs)
      let ranks ← buildRanksE sorted
      let top ← headE sorted
      let bottom ← lastE sorted
      let a1 ← meanE (rs.map (fun r => getNumD r "dpc_ws_visited" 0))
      let a2 ← meanE (rs.map (fun r => getNumD r "adpc_ws_visited" 0))
      let a3 ← meanE (rs.map (fun r => getNumD r "dpc_marks" 0))
      let a4 ← meanE (rs.map (fun r => getNumD r "adpc_marks" 0))
      let a5 ← meanE (rs.map (fun r => getNumD r "total_visit_marks" 0))
      pure (some ⟨top, bottom,
        [("dpc_ws_visited", round2 a1), ("adpc_ws_visited", round2 a2),
          ("dpc_marks", round2 a3), ("adpc_marks", round2 a4),
          ("total_marks", round2 a5)],
        ranks, sorted.length, d.rangeStart?.getD "", d.rangeEnd?.getD ""⟩)

/-- `process_state_work_data` (lines 53–116): same shape, metric
`work_management_total`, no tie-break, two source-supplied state averages
passed through. -/
def processStateWork (data : Option ApiData) :
    Except PyErr (Option WorkStateOut) :=
  match data with
  | none => .ok none
  | some d =>
    match d.results? with
    | none => .ok none
    | some rs0 => do
      let rs := normalizeRecords rs0
      let sap := round2 (d.stateAvgPrev?.getD 0)
      let sac := round2 (d.stateAvgCurr?.getD 0)
      let sorted := sortDescBy workTotal rs
      let ranks ← buildRanksE sorted
      let top ← headE sorted
      let bottom ← lastE sorted
      let a1 ← meanE (rs.map (fun r => getNumD r "prev_completion" 0))
      let a2 ← meanE (rs.map (fun r => getNumD r "curr_completion" 0))
      let a3 ← meanE (rs.map (fun r => getNumD r "marks_prev" 0))
      let a4 ← meanE (rs.map (fun r => getNumD r "marks_curr" 0))
      let a5 ← meanE (rs.map (fun r => getNumD r "work_management_total" 0))
      pure (some ⟨top, bottom,
        [("prev_completion", round2 a1), ("curr_completion", round2 a2),
          ("marks_prev", round2 a3), ("marks_curr", round2 a4),
          ("total_marks", round2 a5), ("state_avg_prev", sap),
          ("state_avg_curr", sac)],
        ranks, sorted.length⟩)

/-- `process_state_zero_muster_data` (lines 53–109): ascending sort by
`zero_attendance_percentage` (lower is better), no tie-break. -/
def processStateZero (data : Option ApiData) :
    Except PyErr (Option ZeroStateOut) :=
  match data with
  | none => .ok none
  | some d =>
    match d.results? with
    | none => .ok none
    | some rs0 => do
      let rs := normalizeRecords rs0
      let sorted := sortAscBy zeroPct rs
      let ranks ← buildRanksE sorted
      let top ← headE sorted
      let bottom ← lastE sorted
      let a1 ← meanE (rs.map (fun r => getNumD r "total_muster_issued" 0))
      let a2 ← meanE (rs.map (fun r => getNumD r "total_zero_attendance" 0))
      let a3 ← meanE (rs.map (fun r => getNumD r "zero_attendance_percentage" 0))
      let a4 ← meanE (rs.map (fun r => getNumD r "zero_muster_marks" 0))
      pure (some ⟨top, bottom,
        [("total_muster_issued", round2 a1), ("total_zero_attendance", round2 a2),
          ("zero_attendance_percentage", round2 a3), ("zero_muster_marks", round2 a4)],
        ranks, sorted.length⟩)

/-- Guarded name read `block['group_name'] if block else None`. -/
def optNameE : Option Record → Except PyErr (Option Value)
  | some r => do
    let n ← getItemE r "group_name"
    pure (some n)
  | none => pure none

/-- Guarded metric read `block.get(k, 0) if block else 0`. -/
def optNumD (o : Option Record) (k : String) : ℚ :=
  match o with
  | some r => getNumD r k 0
  | none => 0

/-- `process_district_inspection_data` (lines 129–201): normalize, sort,
tie-break pass, five averages (before the guarded best/worst extraction),
guarded highest/lowest block. -/
def processDistrictInspection (data : Option ApiData) :
    Except PyErr (Option InspDistrictOut) :=
  match data with
  | none => .ok none
  | some d =>
    match d.results? with
    | none => .ok none
    | some rs0 => do
      let rs := normalizeRecords rs0
      let sorted ← tieBreakPassE (sortDescBy inspPrimary rs)
      let a1 ← meanE (rs.map (fun r => getNumD r "dpc_ws_visited" 0))
      let a2 ← meanE (rs.map (fun r => getNumD r "adpc_ws_visited" 0))
      let a3 ← meanE (rs.map (fun r => getNumD r "dpc_marks" 0))
      let a4 ← meanE (rs.map (fun r => getNumD r "adpc_marks" 0))
      let a5 ← meanE (rs.map (fun r => getNumD r "total_visit_marks" 0))
      let hname ← optNameE sorted.head?
      let lname ← optNameE sorted.getLast?
      pure (some ⟨sorted, rs.length,
        [("average_dpc_ws_visited", round2 a1), ("average_adpc_ws_visited", round2 a2),
          ("average_dpc_marks", round2 a3), ("average_adpc_marks", round2 a4),
          ("average_total_marks", round2 a5)],
        hname, optNumD sorted.head? "total_visit_marks",
        lname, optNumD sorted.getLast? "total_visit_marks",
        d.rangeStart?.getD "", d.rangeEnd?.getD ""⟩)

/-- `process_district_work_data` (lines 118–178): normalize, passthrough
state averages, sort, five averages, then unguarded `sorted_blocks[0]` /
`sorted_blocks[-1]` and raising name reads. -/
def processDistrictWork (data : Option ApiData) :
    Except PyErr (Option WorkDistrictOut) :=
  match data with
  | none => .ok none
  | some d =>
    match d.results? with
    | none => .ok none
    | some rs0 => do
      let rs := normalizeRecords rs0
      let sap := round2 (d.stateAvgPrev?.getD 0)
      let sac := round2 (d.stateAvgCurr?.getD 0)
      let sorted := sortDescBy workTotal rs
      let a1 ← meanE (rs.map (fun r => getNumD r "prev_completion" 0))
      let a2 ← meanE (rs.map (fun r => getNumD r "curr_completion" 0))
      let a3 ← meanE (rs.map (fun r => getNumD r "marks_prev" 0))
      let a4 ← meanE (rs.map (fun r => getNumD r "marks_curr" 0))
      let a5 ← meanE (rs.map (fun r => getNumD r "work_management_total" 0))
      let top ← headE sorted
      let bottom ← lastE sorted
      let hname ← getItemE top "group_name"
      let lname ← getItemE bottom "group_name"
      pure (some ⟨sorted, rs.length,
        [("average_prev_completion", round2 a1), ("average_curr_completion", round2 a2),
          ("average_marks_prev", round2 a3), ("average_marks_curr", round2 a4),
          ("average_total_marks", round2 a5), ("state_avg_prev", sap),
          ("state_avg_curr", sac)],
        hname, getNumD top "work_management_total" 0,
        lname, getNumD bottom "work_management_total" 0⟩)

/-- `process_district_zero_muster_data` (lines 111–165): normalize,
ascending sort, four averages (before the guarded best/worst extraction),
guarded best/worst block. -/
def processDistrictZero (data : Option ApiData) :
    Except PyErr (Option ZeroDistrictOut) :=
  match data with
  | none => .ok none
  | some d =>
    match d.results? with
    | none => .ok none
    | some rs0 => do
      let rs := normalizeRecords rs0
      let sorted := sortAscBy zeroPct rs
      let a1 ← meanE (rs.map (fun r => getNumD r "total_muster_issued" 0))
      let a2 ← meanE (rs.map (fun r => getNumD r "total_zero_attendance" 0))
      let a3 ← meanE (rs.map (fun r => getNumD r "zero_attendance_percentage" 0))
      let a4 ← meanE (rs.map (fun r => getNumD r "zero_muster_marks" 0))
      let bname ← optNameE sorted.head?
      let wname ← optNameE sorted.getLast?
      pure (some ⟨sorted, rs.length,
        [("average_total_muster_issued", round2 a1),
          ("average_total_zero_attendance", round2 a2),
          ("average_zero_attendance_percentage", round2 a3),
          ("average_zero_muster_marks", round2 a4)],
        bname, optNumD sorted.head? "zero_attendance_percentage",
        wname, optNumD sorted.getLast? "zero_attendance_percentage"⟩)

/- ### The caller-visible payload after an aggregator ran -/

/-- The state payload after `process_state_inspection_data` returned: the
guard returns before the mutation, otherwise `results` is normalized in
place. -/
def processStateInspectionPost (data : Option ApiData) : Option ApiData :=
  match data with
  | none => none
  | some d =>
    match d.results? with
    | none => some d
    | some _ => some (normalizeData d)

/-- The district payload after `process_district_zero_muster_data`
returned (its lines 127–131 mutate the same way). -/
def processDistrictZeroPost (data : Option ApiData) : Option ApiData :=
  match data with
  | none => none
  | some d =>
    match d.results? with
    | none => some d
    | some _ => some (normalizeData d)

/-- The orchestrator's target lookup (`main`, lines 440–443): first record
of the state payload whose `group_name` equals the district, `None` when
absent, raising `KeyError` as `d['group_name']` does. -/
def findTargetE (district : String) : List Record → Except PyErr (Option Record)
  | [] => pure none
  | r :: rest => do
    let n ← getItemE r "group_name"
    if valEq n (.str district) then pure (some r) else findTargetE district rest

/- ### Support lemmas for the success paths -/

theorem meanE_eq {l : List ℚ} (h : l ≠ []) : meanE l = .ok (specMean l) := by
  cases l with
  | nil => exact absurd rfl h
  | cons a t => rfl

theorem headE_eq {α : Type} [Inhabited α] {l : List α} (h : l ≠ []) :
    headE l = .ok l.headI := by
  cases l with
  | nil => exact absurd rfl h
  | cons a t => rfl

theorem lastE_eq {α : Type} [Inhabited α] {l : List α} (h : l ≠ []) :
    lastE l = .ok l.getLastI := by
  unfold lastE
  cases hl : l.getLast? with
  | none => exact absurd (List.getLast?_eq_none_iff.mp hl) h
  | some a => rw [List.getLastI_eq_getLast?, hl]

theorem hasKey_normalizeRecord (r : Record) (k : String) :
    hasKey (normalizeRecord r) k = hasKey r k := by
  unfold hasKey
  rw [lookupVal_normalizeRecord]
  cases lookupVal r k <;> simp

theorem inspWF_normalizeRecord (r : Record) :
    inspWF (normalizeRecord r) = inspWF r := by
  unfold inspWF
  rw [hasNumKey_normalizeRecord, hasNumKey_normalizeRecord, hasNumKey_normalizeRecord]

theorem normalizeRecords_length (rs : List Record) :
    (normalizeRecords rs).length = rs.length :=
  List.length_map rs normalizeRecord

theorem normalizeRecords_ne_nil {rs : List Record} (h : rs ≠ []) :
    normalizeRecords rs ≠ [] := by
  intro hc
  have := normalizeRecords_length rs
  rw [hc] at this
  exact h (List.length_eq_zero.mp this.symm)

theorem normalizeRecord_of_mem {r : Record} {rs : List Record}
    (h : r ∈ normalizeRecords rs) : normalizeRecord r = r := by
  obtain ⟨r0, -, rfl⟩ := List.mem_map.mp h
  exact normalizeRecord_idem r0

theorem hasKey_name_normalized {rs0 : List Record}
    (h : ∀ r ∈ rs0, hasKey r "group_name" = true) :
    ∀ r ∈ normalizeRecords rs0, hasKey r "group_name" = true := by
  intro r hr
  obtain ⟨r0, hr0, rfl⟩ := List.mem_map.mp hr
  rw [hasKey_normalizeRecord]
  exact h r0 hr0

theorem inspWF_normalized {rs0 : List Record}
    (h : ∀ r ∈ rs0, inspWF r = true) :
    ∀ r ∈ normalizeRecords rs0, inspWF r = true := by
  intro r hr
  obtain ⟨r0, hr0, rfl⟩ := List.mem_map.mp hr
  rw [inspWF_normalizeRecord]
  exact h r0 hr0

theorem getNamesE_ok {rs : List Record}
    (h : ∀ r ∈ rs, hasKey r "group_name" = true) :
    getNamesE rs = .ok (rs.map nameD) := by
  induction rs with
  | nil => rfl
  | cons r rest ih =>
    have hr := h r (List.mem_cons_self r rest)
    unfold hasKey at hr
    unfold getNamesE getItemE
    cases hl : lookupVal r "group_name" with
    | none => rw [hl] at hr; simp at hr
    | some v =>
      simp only [hl]
      simp only [exceptBind_ok]
      rw [ih (fun r2 hr2 => h r2 (List.mem_cons_of_mem _ hr2))]
      simp only [exceptBind_ok, exceptPure_eq, List.map_cons]
      simp [nameD, hl]

theorem buildRanksE_ok {rs : List Record}
    (h : ∀ r ∈ rs, hasKey r "group_name" = true) :
    buildRanksE rs = .ok (buildRanks (rs.map nameD)) := by
  unfold buildRanksE
  rw [getNamesE_ok h]
  rfl

/- ### The rank dict is `[1..N]` on distinct names -/

/-- The append-only rank association list, rank `i` onward. -/
def ranksList (i : Nat) : List Value → List (Value × Nat)
  | [] => []
  | n :: ns => (n, i) :: ranksList (i + 1) ns

theorem ranksList_map_snd (i : Nat) (ns : List Value) :
    (ranksList i ns).map Prod.snd = List.range' i ns.length := by
  induction ns generalizing i with
  | nil => rfl
  | cons n ns ih => simp [ranksList, List.range'_succ, ih]

theorem dictSet_fresh {d : List (Value × Nat)} {k : Value} (v : Nat)
    (h : ∀ p ∈ d, p.1 ≠ k) : dictSet d k v = d ++ [(k, v)] := by
  unfold dictSet
  rw [if_neg]
  simp only [List.any_eq_true, beq_iff_eq, not_exists]
  intro p hp
  exact h p hp.1 hp.2

theorem buildRanksFrom_nodup {names : List Value} (hnod : names.Nodup) :
    ∀ (d : List (Value × Nat)) (i : Nat),
      (∀ n ∈ names, ∀ p ∈ d, p.1 ≠ n) →
      buildRanksFrom d i names = d ++ ranksList i names := by
  induction names with
  | nil => intro d i _; simp [buildRanksFrom, ranksList]
  | cons n ns ih =>
    intro d i hd
    have hn_notin : n ∉ ns := (List.nodup_cons.mp hnod).1
    unfold buildRanksFrom
    rw [dictSet_fresh i (fun p hp => hd n (List.mem_cons_self n ns) p hp)]
    rw [ih (List.nodup_cons.mp hnod).2 (d ++ [(n, i)]) (i + 1) ?fresh]
    · simp [ranksList]
    case fresh =>
      intro m hm p hp
      rcases List.mem_append.mp hp with hpd | hpn
      · exact hd m (List.mem_cons_of_mem _ hm) p hpd
      · have hpe : p = (n, i) := by simpa using hpn
        rw [hpe]
        intro hc
        apply hn_notin
        have hnm : n = m := hc
        rw [hnm]
        exact hm

theorem buildRanks_nodup {names : List Value} (h : names.Nodup) :
    (buildRanks names).map Prod.snd = List.range' 1 names.length := by
  unfold buildRanks
  rw [buildRanksFrom_nodup h [] 1 (by simp)]
  simpa using ranksList_map_snd 1 names

/- ### Success characterizations of the state aggregators -/

/-- The final ranked collection of the inspection state aggregator. -/
def inspStateSorted (rs0 : List Record) : List Record :=
  tieBreakPass (sortDescBy inspPrimary (normalizeRecords rs0))

/-- The final ranked collection of the work-management state aggregator. -/
def workStateSorted (rs0 : List Record) : List Record :=
  sortDescBy workTotal (normalizeRecords rs0)

/-- The final ranked collection of the zero-muster state aggregator. -/
def zeroStateSorted (rs0 : List Record) : List Record :=
  sortAscBy zeroPct (normalizeRecords rs0)

theorem ne_nil_of_length_eq {α β : Type} {l : List α} {l2 : List β}
    (h : l.length = l2.length) (h2 : l2 ≠ []) : l ≠ [] := by
  intro hc
  rw [hc] at h
  exact h2 (List.length_eq_zero.mp h.symm)

theorem sortDescBy_length (key : Record → ℚ) (l : List Record) :
    (sortDescBy key l).length = l.length :=
  (sortDescBy_perm key l).length_eq

theorem sortAscBy_length (key : Record → ℚ) (l : List Record) :
    (sortAscBy key l).length = l.length :=
  (sortAscBy_perm key l).length_eq

theorem inspStateSorted_length (rs0 : List Record) :
    (inspStateSorted rs0).length = rs0.length := by
  unfold inspStateSorted
  rw [tieBreakPass_length, sortDescBy_length, normalizeRecords_length]

theorem workStateSorted_length (rs0 : List Record) :
    (workStateSorted rs0).length = rs0.length := by
  unfold workStateSorted
  rw [sortDescBy_length, normalizeRecords_length]

theorem zeroStateSorted_length (rs0 : List Record) :
    (zeroStateSorted rs0).length = rs0.length := by
  unfold zeroStateSorted
  rw [sortAscBy_length, normalizeRecords_length]

theorem mem_inspStateSorted {rs0 : List Record} {r : Record} :
    r ∈ inspStateSorted rs0 ↔ r ∈ normalizeRecords rs0 := by
  unfold inspStateSorted
  rw [(tieBreakPass_perm _).mem_iff, (sortDescBy_perm _ _).mem_iff]

theorem mem_workStateSorted {rs0 : List Record} {r : Record} :
    r ∈ workStateSorted rs0 ↔ r ∈ normalizeRecords rs0 := by
  unfold workStateSorted
  rw [(sortDescBy_perm _ _).mem_iff]

theorem mem_zeroStateSorted {rs0 : List Record} {r : Record} :
    r ∈ zeroStateSorted rs0 ↔ r ∈ normalizeRecords rs0 := by
  unfold zeroStateSorted
  rw [(sortAscBy_perm _ _).mem_iff]

theorem map_ne_nil_of_ne_nil {α β : Type} {l : List α} (f : α → β)
    (h : l ≠ []) : l.map f ≠ [] := by
  intro hc
  exact h (List.map_eq_nil_iff.mp hc)

theorem processStateWork_ok (d : ApiData) (rs0 : List Record)
    (hres : d.results? = some rs0) (hne : rs0 ≠ [])
    (hnm : ∀ r ∈ rs0, hasKey r "group_name" = true) :
    processStateWork (some d) = .ok (some ⟨(workStateSorted rs0).headI,
      (workStateSorted rs0).getLastI,
      [("prev_completion", round2 (specMean ((normalizeRecords rs0).map (fun r => getNumD r "prev_completion" 0)))),
        ("curr_completion", round2 (specMean ((normalizeRecords rs0).map (fun r => getNumD r "curr_completion" 0)))),
        ("marks_prev", round2 (specMean ((normalizeRecords rs0).map (fun r => getNumD r "marks_prev" 0)))),
        ("marks_curr", round2 (specMean ((normalizeRecords rs0).map (fun r => getNumD r "marks_curr" 0)))),
        ("total_marks", round2 (specMean ((normalizeRecords rs0).map (fun r => getNumD r "work_management_total" 0)))),
        ("state_avg_prev", round2 (d.stateAvgPrev?.getD 0)),
        ("state_avg_curr", round2 (d.stateAvgCurr?.getD 0))],
      buildRanks ((workStateSorted rs0).map nameD),
      rs0.length⟩) := by
  have hunfold : workStateSorted rs0 = sortDescBy workTotal (normalizeRecords rs0) := rfl
  have hlen : (workStateSorted rs0).length = rs0.length := workStateSorted_length rs0
  have hsne : workStateSorted rs0 ≠ [] := ne_nil_of_length_eq hlen hne
  have hsnm : ∀ r ∈ workStateSorted rs0, hasKey r "group_name" = true :=
    fun r hr => hasKey_name_normalized hnm r (mem_workStateSorted.mp hr)
  have hnne : normalizeRecords rs0 ≠ [] := normalizeRecords_ne_nil hne
  simp only [processStateWork, hres]
  rw [← hunfold]
  rw [buildRanksE_ok hsnm, headE_eq hsne, lastE_eq hsne,
    meanE_eq (map_ne_nil_of_ne_nil _ hnne), meanE_eq (map_ne_nil_of_ne_nil _ hnne),
    meanE_eq (map_ne_nil_of_ne_nil _ hnne), meanE_eq (map_ne_nil_of_ne_nil _ hnne),
    meanE_eq (map_ne_nil_of_ne_nil _ hnne)]
  simp only [exceptBind_ok, exceptPure_eq]
  rw [hlen]

theorem processStateZero_ok (d : ApiData) (rs0 : List Record)
    (hres : d.results? = some rs0) (hne : rs0 ≠ [])
    (hnm : ∀ r ∈ rs0, hasKey r "group_name" = true) :
    processStateZero (some d) = .ok (some ⟨(zeroStateSorted rs0).headI,
      (zeroStateSorted rs0).getLastI,
      [("total_muster_issued", round2 (specMean ((normalizeRecords rs0).map (fun r => getNumD r "total_muster_issued" 0)))),
        ("total_zero_attendance", round2 (specMean ((normalizeRecords rs0).map (fun r => getNumD r "total_zero_attendance" 0)))),
        ("zero_attendance_percentage", round2 (specMean ((normalizeRecords rs0).map (fun r => getNumD r "zero_attendance_percentage" 0)))),
        ("zero_muster_marks", round2 (specMean ((normalizeRecords rs0).map (fun r => getNumD r "zero_muster_marks" 0))))],
      buildRanks ((zeroStateSorted rs0).map nameD),
      rs0.length⟩) := by
  have hunfold : zeroStateSorted rs0 = sortAscBy zeroPct (normalizeRecords rs0) := rfl
  have hlen : (zeroStateSorted rs0).length = rs0.length := zeroStateSorted_length rs0
  have hsne : zeroStateSorted rs0 ≠ [] := ne_nil_of_length_eq hlen hne
  have hsnm : ∀ r ∈ zeroStateSorted rs0, hasKey r "group_name" = true :=
    fun r hr => hasKey_name_normalized hnm r (mem_zeroStateSorted.mp hr)
  have hnne : normalizeRecords rs0 ≠ [] := normalizeRecords_ne_nil hne
  simp only [processStateZero, hres]
  rw [← hunfold]
  rw [buildRanksE_ok hsnm, headE_eq hsne, lastE_eq hsne,
    meanE_eq (map_ne_nil_of_ne_nil _ hnne), meanE_eq (map_ne_nil_of_ne_nil _ hnne),
    meanE_eq (map_ne_nil_of_ne_nil _ hnne), meanE_eq (map_ne_nil_of_ne_nil _ hnne)]
  simp only [exceptBind_ok, exceptPure_eq]
  rw [hlen]

theorem processStateInspection_ok (d : ApiData) (rs0 : List Record)
    (hres : d.results? = some rs0) (hne : rs0 ≠ [])
    (hwf : ∀ r ∈ rs0, inspWF r = true)
    (hnm : ∀ r ∈ rs0, hasKey r "group_name" = true) :
    processStateInspection (some d) = .ok (some ⟨(inspStateSorted rs0).headI,
      (inspStateSorted rs0).getLastI,
      [("dpc_ws_visited", round2 (specMean ((normalizeRecords rs0).map (fun r => getNumD r "dpc_ws_visited" 0)))),
        ("adpc_ws_visited", round2 (specMean ((normalizeRecords rs0).map (fun r => getNumD r "adpc_ws_visited" 0)))),
        ("dpc_marks", round2 (specMean ((normalizeRecords rs0).map (fun r => getNumD r "dpc_marks" 0)))),
        ("adpc_marks", round2 (specMean ((normalizeRecords rs0).map (fun r => getNumD r "adpc_marks" 0)))),
        ("total_marks", round2 (specMean ((normalizeRecords rs0).map (fun r => getNumD r "total_visit_marks" 0))))],
      buildRanks ((inspStateSorted rs0).map nameD),
      rs0.length, d.rangeStart?.getD "", d.rangeEnd?.getD ""⟩) := by
  have hunfold : inspStateSorted rs0 =
      tieBreakPass (sortDescBy inspPrimary (normalizeRecords rs0)) := rfl
  have hlen : (inspStateSorted rs0).length = rs0.length := inspStateSorted_length rs0
  have hsne : inspStateSorted rs0 ≠ [] := ne_nil_of_length_eq hlen hne
  have hsnm : ∀ r ∈ inspStateSorted rs0, hasKey r "group_name" = true :=
    fun r hr => hasKey_name_normalized hnm r (mem_inspStateSorted.mp hr)
  have hnne : normalizeRecords rs0 ≠ [] := normalizeRecords_ne_nil hne
  have hwf0 : ∀ r ∈ sortDescBy inspPrimary (normalizeRecords rs0), inspWF r = true :=
    fun r hr => inspWF_normalized hwf r ((sortDescBy_perm _ _).mem_iff.mp hr)
  simp only [processStateInspection, hres]
  rw [tieBreakPassE_of_wf hwf0]
  rw [← hunfold]
  simp only [exceptBind_ok]
  rw [buildRanksE_ok hsnm, headE_eq hsne, lastE_eq hsne,
    meanE_eq (map_ne_nil_of_ne_nil _ hnne), meanE_eq (map_ne_nil_of_ne_nil _ hnne),
    meanE_eq (map_ne_nil_of_ne_nil _ hnne), meanE_eq (map_ne_nil_of_ne_nil _ hnne),
    meanE_eq (map_ne_nil_of_ne_nil _ hnne)]
  simp only [exceptBind_ok, exceptPure_eq]
  rw [hlen]

/- ### Result projections (total readers of an aggregator result) -/

/-- The aggregator produced a processed result (not `None`, no fault). -/
def isOkSomeInsp : Except PyErr (Option InspStateOut) → Bool
  | .ok (some _) => true
  | _ => false

/-- The aggregator produced a processed result (not `None`, no fault). -/
def isOkSomeWork : Except PyErr (Option WorkStateOut) → Bool
  | .ok (some _) => true
  | _ => false

/-- The aggregator produced a processed result (not `None`, no fault). -/
def isOkSomeZero : Except PyErr (Option ZeroStateOut) → Bool
  | .ok (some _) => true
  | _ => false

/-- The rank values of a successful inspection state result. -/
def ranksOfInsp : Except PyErr (Option InspStateOut) → List Nat
  | .ok (some o) => o.ranks.map Prod.snd
  | _ => []

/-- The rank values of a successful work-management state result. -/
def ranksOfWork : Except PyErr (Option WorkStateOut) → List Nat
  | .ok (some o) => o.ranks.map Prod.snd
  | _ => []

/-- The rank values of a successful zero-muster state result. -/
def ranksOfZero : Except PyErr (Option ZeroStateOut) → List Nat
  | .ok (some o) => o.ranks.map Prod.snd
  | _ => []

/-- The top (rank-1) record of a successful inspection state result. -/
def topOfInsp : Except PyErr (Option InspStateOut) → Record
  | .ok (some o) => o.top
  | _ => []

/-- The top (rank-1) record of a successful work-management state result. -/
def topOfWork : Except PyErr (Option WorkStateOut) → Record
  | .ok (some o) => o.top
  | _ => []

/-- The top (rank-1) record of a successful zero-muster state result. -/
def topOfZero : Except PyErr (Option ZeroStateOut) → Record
  | .ok (some o) => o.top
  | _ => []

/-- The averages of a successful inspection state result. -/
def avgsOfInsp : Except PyErr (Option InspStateOut) → List (String × ℚ)
  | .ok (some o) => o.averages
  | _ => []

/-- The averages of a successful zero-muster state result. -/
def avgsOfZero : Except PyErr (Option ZeroStateOut) → List (String × ℚ)
  | .ok (some o) => o.averages
  | _ => []

/- ### Concrete records used by the concrete-input claims -/

/-- Inspection record lacking `total_visit_marks` (other fields numeric). -/
def recNoMarks : Record :=
  [("group_name", .str "A"), ("dpc_ws_visited", .int 1), ("adpc_ws_visited", .int 1)]

/-- Full inspection record with total marks 3. -/
def recMarks3 : Record :=
  [("group_name", .str "B"), ("total_visit_marks", .int 3),
    ("dpc_ws_visited", .int 0), ("adpc_ws_visited", .int 0)]

/-- Tied run, secondary metric 1. -/
def runX : Record :=
  [("group_name", .str "X"), ("total_visit_marks", .int 6),
    ("dpc_ws_visited", .int 1), ("adpc_ws_visited", .int 0)]

/-- Tied run, secondary metric 2. -/
def runY : Record :=
  [("group_name", .str "Y"), ("total_visit_marks", .int 6),
    ("dpc_ws_visited", .int 2), ("adpc_ws_visited", .int 0)]

/-- Tied run, secondary metric 3. -/
def runZ : Record :=
  [("group_name", .str "Z"), ("total_visit_marks", .int 6),
    ("dpc_ws_visited", .int 3), ("adpc_ws_visited", .int 0)]

/- ### Claims -/

/-- C7: numeric normalization — rounding every float-valued field of every
record to 2 decimals while leaving integer-valued fields untouched — is
idempotent: applying it twice to a collection yields the same records as
applying it once. -/
theorem claim7_normalization_idempotent (rs : List Record) :
    normalizeRecords (normalizeRecords rs) = normalizeRecords rs :=
  normalizeRecords_idem rs

/-- C8: for a null/falsy input, or a payload without the `results`
collection, each of the three state aggregators returns the explicit
no-data signal (`None`) and raises nothing past the aggregator boundary. -/
theorem claim8_no_data_signal :
    (processStateInspection none = .ok none ∧ processStateWork none = .ok none ∧
      processStateZero none = .ok none) ∧
    ∀ d : ApiData, d.results? = none →
      processStateInspection (some d) = .ok none ∧
      processStateWork (some d) = .ok none ∧
      processStateZero (some d) = .ok none := by
  refine ⟨⟨rfl, rfl, rfl⟩, ?_⟩
  intro d hd
  refine ⟨?_, ?_, ?_⟩
  · simp only [processStateInspection, hd]
  · simp only [processStateWork, hd]
  · simp only [processStateZero, hd]

/-- Witness for C8 at a concrete payload lacking `results`. -/
theorem claim8_witness :
    processStateInspection (some ⟨none, none, none, none, none⟩) = .ok none ∧
    processStateWork (some ⟨none, none, none, none, none⟩) = .ok none ∧
    processStateZero (some ⟨none, none, none, none, none⟩) = .ok none :=
  claim8_no_data_signal.2 ⟨none, none, none, none, none⟩ rfl

/-- C5: a payload whose `results` collection is present but empty makes
state-level aggregation in each of the three pipelines fail with an
explicit uncaught fault (the empty-input index fault, the spec's
EmptyInputError) instead of returning a processed result. -/
theorem claim5_empty_state_raises (d : ApiData) (hres : d.results? = some []) :
    processStateInspection (some d) = .error .indexError ∧
    processStateWork (some d) = .error .indexError ∧
    processStateZero (some d) = .error .indexError := by
  refine ⟨?_, ?_, ?_⟩
  · simp only [processStateInspection, hres]
    rfl
  · simp only [processStateWork, hres]
    rfl
  · simp only [processStateZero, hres]
    rfl

/-- Witness for C5 at a concrete empty-results payload. -/
theorem claim5_witness :
    processStateInspection (some ⟨some [], none, none, none, none⟩) = .error .indexError ∧
    processStateWork (some ⟨some [], none, none, none, none⟩) = .error .indexError ∧
    processStateZero (some ⟨some [], none, none, none, none⟩) = .error .indexError :=
  claim5_empty_state_raises ⟨some [], none, none, none, none⟩ rfl

/-- C4 counterexample: on an empty district child collection the
work-management entity aggregator raises the statistics fault from the
first average computation; it does not return a result with null best/worst
block names. -/
theorem claim4_counterexample :
    processDistrictWork (some ⟨some [], none, none, none, none⟩) =
      .error .statisticsError := by
  rfl

/-- C4 amended: on the work-management pipeline, processing an empty
entity-level (district) child collection raises the statistics fault when
the first average is computed over the empty collection — it does not
return a result, so the null best/worst reporting is unreachable there. -/
theorem claim4_empty_district_work_raises (d : ApiData)
    (hres : d.results? = some []) :
    processDistrictWork (some d) = .error .statisticsError := by
  simp only [processDistrictWork, hres]
  rfl

/-- Witness for C4 (amended) at a concrete payload with extra fields set. -/
theorem claim4_witness :
    processDistrictWork (some ⟨some [], some "s", some "e", none, none⟩) =
      .error .statisticsError :=
  claim4_empty_district_work_raises ⟨some [], some "s", some "e", none, none⟩ rfl

/-- C9: with two records present, the tie-break pass indexes
`total_visit_marks` directly on the records, so this input whose first
record lacks the field raises `KeyError` — even though the initial sort
tolerated the absence via its `get` default of 0 and placed that record
last. -/
theorem claim9_missing_field_keyerror :
    processStateInspection (some ⟨some [recNoMarks, recMarks3], none, none, none, none⟩) =
      .error (.keyError "total_visit_marks") ∧
    sortDescBy inspPrimary (normalizeRecords [recNoMarks, recMarks3]) =
      [normalizeRecord recMarks3, normalizeRecord recNoMarks] ∧
    inspPrimary recNoMarks = 0 := by
  refine ⟨rfl, rfl, rfl⟩

theorem decide_lt_of_intCast_lt {a b c d : Int} (h : a + b < c + d) :
    decide (((a : ℚ) + (b : ℚ)) < ((c : ℚ) + (d : ℚ))) = true := by
  apply decide_eq_true
  exact_mod_cast h

/-- C1: in the inspection pipeline exactly one adjacent-pair pass follows
the descending sort (first conjunct: the raising loop equals the pure pass
on field-complete records). For an adjacent tie isolated from its
neighbours whose second record has the strictly larger secondary metric,
the two are swapped and nothing else moves (second conjunct). For a run of
three equal-primary records the result need not be fully ordered by the
secondary metric: the concrete run X,Y,Z with secondaries 1,2,3 ends as
Y,Z,X, whose first two entries are adjacent, tied on the primary metric and
in increasing secondary order (third conjunct). -/
theorem claim1_single_tiebreak_pass :
    (∀ l : List Record, (∀ r ∈ l, inspWF r = true) →
      tieBreakPassE l = .ok (tieBreakPass l)) ∧
    (∀ (l1 l2 : List Record) (a b : Record),
      inspPrimary a = inspPrimary b →
      inspSecondary a < inspSecondary b →
      (∀ w ∈ l1, ¬ inspPrimary w = inspPrimary a) →
      (∀ w ∈ l2, ¬ inspPrimary w = inspPrimary a) →
      tieBreakPass (l1 ++ a :: b :: l2) =
        tieBreakPass l1 ++ b :: a :: tieBreakPass l2) ∧
    (tieBreakPass [runX, runY, runZ] = [runY, runZ, runX] ∧
      inspPrimary runY = inspPrimary runZ ∧
      inspSecondary runY < inspSecondary runZ) := by
  refine ⟨fun l hl => tieBreakPassE_of_wf hl,
    fun l1 l2 a b hab hsec h1 h2 => tieBreakPass_isolated_pair l1 l2 a b hab hsec h1 h2,
    ?_, rfl, ?_⟩
  · have hXY : tieCond runX runY = true := by
      unfold tieCond
      have h1 : decide (inspPrimary runX = inspPrimary runY) = true := by rfl
      have h2 : decide (inspSecondary runX < inspSecondary runY) = true :=
        decide_lt_of_intCast_lt (a := 1) (b := 0) (c := 2) (d := 0) (by norm_num)
      rw [h1, h2]
      rfl
    have hXZ : tieCond runX runZ = true := by
      unfold tieCond
      have h1 : decide (inspPrimary runX = inspPrimary runZ) = true := by rfl
      have h2 : decide (inspSecondary runX < inspSecondary runZ) = true :=
        decide_lt_of_intCast_lt (a := 1) (b := 0) (c := 3) (d := 0) (by norm_num)
      rw [h1, h2]
      rfl
    simp only [tieBreakPass, tieGo, hXY, hXZ, if_true]
  · have h2 : decide (inspSecondary runY < inspSecondary runZ) = true :=
      decide_lt_of_intCast_lt (a := 2) (b := 0) (c := 3) (d := 0) (by norm_num)
    exact of_decide_eq_true h2

/-- Isolated tied pair used by the C1 witness. -/
def pairA : Record :=
  [("group_name", .str "PA"), ("total_visit_marks", .int 5),
    ("dpc_ws_visited", .int 1), ("adpc_ws_visited", .int 0)]

/-- Isolated tied pair used by the C1 witness. -/
def pairB : Record :=
  [("group_name", .str "PB"), ("total_visit_marks", .int 5),
    ("dpc_ws_visited", .int 2), ("adpc_ws_visited", .int 0)]

/-- Higher-primary neighbour used by the C1 witness. -/
def pairC : Record :=
  [("group_name", .str "PC"), ("total_visit_marks", .int 9),
    ("dpc_ws_visited", .int 0), ("adpc_ws_visited", .int 0)]

/-- Lower-primary neighbour used by the C1 witness. -/
def pairD : Record :=
  [("group_name", .str "PD"), ("total_visit_marks", .int 1),
    ("dpc_ws_visited", .int 0), ("adpc_ws_visited", .int 0)]

/-- Witness for C1: the isolated-pair conjunct applied at a concrete
4-record sorted sequence. -/
theorem claim1_witness :
    tieBreakPass ([pairC] ++ pairA :: pairB :: [pairD]) =
      tieBreakPass [pairC] ++ pairB :: pairA :: tieBreakPass [pairD] :=
  claim1_single_tiebreak_pass.2.1 [pairC] [pairD] pairA pairB rfl
    (of_decide_eq_true (decide_lt_of_intCast_lt (a := 1) (b := 0) (c := 2) (d := 0)
      (by norm_num)))
    (by decide) (by decide)

/- ### Shared witness data: two well-formed records with distinct names -/

/-- Witness record with all pipeline fields, name P. -/
def wrec1 : Record :=
  [("group_name", .str "P"), ("total_visit_marks", .int 4),
    ("dpc_ws_visited", .int 1), ("adpc_ws_visited", .int 0),
    ("work_management_total", .int 7), ("zero_attendance_percentage", .int 20)]

/-- Witness record with all pipeline fields, name Q. -/
def wrec2 : Record :=
  [("group_name", .str "Q"), ("total_visit_marks", .int 2),
    ("dpc_ws_visited", .int 0), ("adpc_ws_visited", .int 0),
    ("work_management_total", .int 3), ("zero_attendance_percentage", .int 10)]

/-- Witness payload holding the two records. -/
def wdata : ApiData := ⟨some [wrec1, wrec2], none, none, none, none⟩

/- ### C2 -/

/-- Duplicate-name record, metric 5. -/
def dupA1 : Record := [("group_name", .str "A"), ("work_management_total", .int 5)]

/-- Duplicate-name record, metric 3. -/
def dupA2 : Record := [("group_name", .str "A"), ("work_management_total", .int 3)]

/-- C2 counterexample: two records sharing the entity name A collapse to a
single dict entry whose rank list is [2]; the ranks of this 2-record
collection are not a permutation of 1..2. -/
theorem claim2_counterexample :
    ¬ (ranksOfWork (processStateWork
        (some ⟨some [dupA1, dupA2], none, none, none, none⟩))).Perm
      (List.range' 1 2) := by
  decide

/-- C2 (amended): for every non-empty collection processed to completion by
a state aggregator whose records bear pairwise-distinct entity names, the
name-to-rank mapping's rank values are a permutation of 1..N, N the number
of records. (Shared entity names overwrite each other in the dict, so
distinctness is required; the inspection conjunct also assumes the fields
its tie-break pass indexes, without which processing raises instead.) -/
theorem claim2_ranks_permutation :
    (∀ (d : ApiData) (rs0 : List Record), d.results? = some rs0 → rs0 ≠ [] →
      (∀ r ∈ rs0, inspWF r = true) →
      (∀ r ∈ rs0, hasKey r "group_name" = true) →
      ((normalizeRecords rs0).map nameD).Nodup →
      isOkSomeInsp (processStateInspection (some d)) = true ∧
      (ranksOfInsp (processStateInspection (some d))).Perm
        (List.range' 1 rs0.length)) ∧
    (∀ (d : ApiData) (rs0 : List Record), d.results? = some rs0 → rs0 ≠ [] →
      (∀ r ∈ rs0, hasKey r "group_name" = true) →
      ((normalizeRecords rs0).map nameD).Nodup →
      isOkSomeWork (processStateWork (some d)) = true ∧
      (ranksOfWork (processStateWork (some d))).Perm
        (List.range' 1 rs0.length)) ∧
    (∀ (d : ApiData) (rs0 : List Record), d.results? = some rs0 → rs0 ≠ [] →
      (∀ r ∈ rs0, hasKey r "group_name" = true) →
      ((normalizeRecords rs0).map nameD).Nodup →
      isOkSomeZero (processStateZero (some d)) = true ∧
      (ranksOfZero (processStateZero (some d))).Perm
        (List.range' 1 rs0.length)) := by
  refine ⟨?_, ?_, ?_⟩
  · intro d rs0 hres hne hwf hnm hnod
    rw [processStateInspection_ok d rs0 hres hne hwf hnm]
    refine ⟨rfl, ?_⟩
    show (buildRanks ((inspStateSorted rs0).map nameD)).map Prod.snd |>.Perm
      (List.range' 1 rs0.length)
    have hperm : (inspStateSorted rs0).Perm (normalizeRecords rs0) :=
      (tieBreakPass_perm _).trans (sortDescBy_perm _ _)
    have hnod2 : ((inspStateSorted rs0).map nameD).Nodup :=
      ((hperm.map nameD).nodup_iff).mpr hnod
    rw [buildRanks_nodup hnod2, List.length_map, inspStateSorted_length]
  · intro d rs0 hres hne hnm hnod
    rw [processStateWork_ok d rs0 hres hne hnm]
    refine ⟨rfl, ?_⟩
    show (buildRanks ((workStateSorted rs0).map nameD)).map Prod.snd |>.Perm
      (List.range' 1 rs0.length)
    have hperm : (workStateSorted rs0).Perm (normalizeRecords rs0) :=
      sortDescBy_perm _ _
    have hnod2 : ((workStateSorted rs0).map nameD).Nodup :=
      ((hperm.map nameD).nodup_iff).mpr hnod
    rw [buildRanks_nodup hnod2, List.length_map, workStateSorted_length]
  · intro d rs0 hres hne hnm hnod
    rw [processStateZero_ok d rs0 hres hne hnm]
    refine ⟨rfl, ?_⟩
    show (buildRanks ((zeroStateSorted rs0).map nameD)).map Prod.snd |>.Perm
      (List.range' 1 rs0.length)
    have hperm : (zeroStateSorted rs0).Perm (normalizeRecords rs0) :=
      sortAscBy_perm _ _
    have hnod2 : ((zeroStateSorted rs0).map nameD).Nodup :=
      ((hperm.map nameD).nodup_iff).mpr hnod
    rw [buildRanks_nodup hnod2, List.length_map, zeroStateSorted_length]

/-- Witness for C2 (amended) at the concrete two-record payload. -/
theorem claim2_witness :
    (isOkSomeInsp (processStateInspection (some wdata)) = true ∧
      (ranksOfInsp (processStateInspection (some wdata))).Perm (List.range' 1 2)) ∧
    (isOkSomeWork (processStateWork (some wdata)) = true ∧
      (ranksOfWork (processStateWork (some wdata))).Perm (List.range' 1 2)) ∧
    (isOkSomeZero (processStateZero (some wdata)) = true ∧
      (ranksOfZero (processStateZero (some wdata))).Perm (List.range' 1 2)) :=
  ⟨claim2_ranks_permutation.1 wdata [wrec1, wrec2] rfl (by decide) (by decide)
      (by decide) (by decide),
    claim2_ranks_permutation.2.1 wdata [wrec1, wrec2] rfl (by decide) (by decide)
      (by decide),
    claim2_ranks_permutation.2.2 wdata [wrec1, wrec2] rfl (by decide) (by decide)
      (by decide)⟩

/- ### C3 -/

/-- C3: whenever a state aggregator completes on a non-empty collection,
the rank-1 record (the extracted top record, first of the final ranked
sequence) carries the maximum primary metric in the two descending
pipelines and the minimum `zero_attendance_percentage` key in the
ascending zero-muster pipeline, compared over the processed (normalized)
collection. -/
theorem claim3_top_is_extremal :
    (∀ (d : ApiData) (rs0 : List Record) (r : Record), d.results? = some rs0 →
      rs0 ≠ [] → (∀ r2 ∈ rs0, inspWF r2 = true) →
      (∀ r2 ∈ rs0, hasKey r2 "group_name" = true) →
      r ∈ normalizeRecords rs0 →
      isOkSomeInsp (processStateInspection (some d)) = true ∧
      inspPrimary r ≤ inspPrimary (topOfInsp (processStateInspection (some d)))) ∧
    (∀ (d : ApiData) (rs0 : List Record) (r : Record), d.results? = some rs0 →
      rs0 ≠ [] → (∀ r2 ∈ rs0, hasKey r2 "group_name" = true) →
      r ∈ normalizeRecords rs0 →
      isOkSomeWork (processStateWork (some d)) = true ∧
      workTotal r ≤ workTotal (topOfWork (processStateWork (some d)))) ∧
    (∀ (d : ApiData) (rs0 : List Record) (r : Record), d.results? = some rs0 →
      rs0 ≠ [] → (∀ r2 ∈ rs0, hasKey r2 "group_name" = true) →
      r ∈ normalizeRecords rs0 →
      isOkSomeZero (processStateZero (some d)) = true ∧
      zeroPct (topOfZero (processStateZero (some d))) ≤ zeroPct r) := by
  refine ⟨?_, ?_, ?_⟩
  · intro d rs0 r hres hne hwf hnm hr
    rw [processStateInspection_ok d rs0 hres hne hwf hnm]
    refine ⟨rfl, ?_⟩
    show inspPrimary r ≤
      inspPrimary (tieBreakPass (sortDescBy inspPrimary (normalizeRecords rs0))).headI
    have hnne : normalizeRecords rs0 ≠ [] := normalizeRecords_ne_nil hne
    have hs0ne : sortDescBy inspPrimary (normalizeRecords rs0) ≠ [] :=
      ne_nil_of_length_eq (sortDescBy_length _ _) hnne
    rw [tieBreakPass_headI_primary hs0ne]
    exact sortDescBy_headI_max inspPrimary (normalizeRecords rs0) r hr
  · intro d rs0 r hres hne hnm hr
    rw [processStateWork_ok d rs0 hres hne hnm]
    exact ⟨rfl, sortDescBy_headI_max workTotal (normalizeRecords rs0) r hr⟩
  · intro d rs0 r hres hne hnm hr
    rw [processStateZero_ok d rs0 hres hne hnm]
    exact ⟨rfl, sortAscBy_headI_min zeroPct (normalizeRecords rs0) r hr⟩

/-- Witness for C3 at the concrete two-record payload. -/
theorem claim3_witness :
    (isOkSomeInsp (processStateInspection (some wdata)) = true ∧
      inspPrimary wrec2 ≤ inspPrimary (topOfInsp (processStateInspection (some wdata)))) ∧
    (isOkSomeWork (processStateWork (some wdata)) = true ∧
      workTotal wrec2 ≤ workTotal (topOfWork (processStateWork (some wdata)))) ∧
    (isOkSomeZero (processStateZero (some wdata)) = true ∧
      zeroPct (topOfZero (processStateZero (some wdata))) ≤ zeroPct wrec1) :=
  ⟨claim3_top_is_extremal.1 wdata [wrec1, wrec2] wrec2 rfl (by decide) (by decide)
      (by decide) (by decide),
    claim3_top_is_extremal.2.1 wdata [wrec1, wrec2] wrec2 rfl (by decide) (by decide)
      (by decide),
    claim3_top_is_extremal.2.2 wdata [wrec1, wrec2] wrec1 rfl (by decide) (by decide)
      (by decide)⟩

/- ### Further projections, post-call payloads, and the entity-level
characterizations (used by C6 and C10) -/

/-- The averages of a successful work-management state result. -/
def avgsOfWork : Except PyErr (Option WorkStateOut) → List (String × ℚ)
  | .ok (some o) => o.averages
  | _ => []

/-- The bottom (last-ranked) record of a successful inspection state result. -/
def bottomOfInsp : Except PyErr (Option InspStateOut) → Record
  | .ok (some o) => o.bottom
  | _ => []

/-- The bottom (last-ranked) record of a successful work-management state result. -/
def bottomOfWork : Except PyErr (Option WorkStateOut) → Record
  | .ok (some o) => o.bottom
  | _ => []

/-- The bottom (last-ranked) record of a successful zero-muster state result. -/
def bottomOfZero : Except PyErr (Option ZeroStateOut) → Record
  | .ok (some o) => o.bottom
  | _ => []

/-- The aggregator produced a processed result (not `None`, no fault). -/
def isOkSomeInspD : Except PyErr (Option InspDistrictOut) → Bool
  | .ok (some _) => true
  | _ => false

/-- The aggregator produced a processed result (not `None`, no fault). -/
def isOkSomeWorkD : Except PyErr (Option WorkDistrictOut) → Bool
  | .ok (some _) => true
  | _ => false

/-- The aggregator produced a processed result (not `None`, no fault). -/
def isOkSomeZeroD : Except PyErr (Option ZeroDistrictOut) → Bool
  | .ok (some _) => true
  | _ => false

/-- The averages of a successful inspection district result. -/
def avgsOfInspD : Except PyErr (Option InspDistrictOut) → List (String × ℚ)
  | .ok (some o) => o.averages
  | _ => []

/-- The averages of a successful work-management district result. -/
def avgsOfWorkD : Except PyErr (Option WorkDistrictOut) → List (String × ℚ)
  | .ok (some o) => o.averages
  | _ => []

/-- The averages of a successful zero-muster district result. -/
def avgsOfZeroD : Except PyErr (Option ZeroDistrictOut) → List (String × ℚ)
  | .ok (some o) => o.averages
  | _ => []

/-- The sorted blocks of a successful inspection district result. -/
def blocksOfInspD : Except PyErr (Option InspDistrictOut) → List Record
  | .ok (some o) => o.blocks
  | _ => []

/-- The sorted blocks of a successful work-management district result. -/
def blocksOfWorkD : Except PyErr (Option WorkDistrictOut) → List Record
  | .ok (some o) => o.blocks
  | _ => []

/-- The sorted blocks of a successful zero-muster district result. -/
def blocksOfZeroD : Except PyErr (Option ZeroDistrictOut) → List Record
  | .ok (some o) => o.blocks
  | _ => []

/-- The state payload after `process_state_work_data` returned: its lines
70–73 mutate `results` in place after the guard. -/
def processStateWorkPost (data : Option ApiData) : Option ApiData :=
  match data with
  | none => none
  | some d =>
    match d.results? with
    | none => some d
    | some _ => some (normalizeData d)

/-- The state payload after `process_state_zero_muster_data` returned
(its lines 70–73 mutate identically). -/
def processStateZeroPost (data : Option ApiData) : Option ApiData :=
  match data with
  | none => none
  | some d =>
    match d.results? with
    | none => some d
    | some _ => some (normalizeData d)

/-- The district payload after `process_district_inspection_data` returned
(its lines 146–149 mutate identically). -/
def processDistrictInspectionPost (data : Option ApiData) : Option ApiData :=
  match data with
  | none => none
  | some d =>
    match d.results? with
    | none => some d
    | some _ => some (normalizeData d)

/-- The district payload after `process_district_work_data` returned
(its lines 135–138 mutate identically). -/
def processDistrictWorkPost (data : Option ApiData) : Option ApiData :=
  match data with
  | none => none
  | some d =>
    match d.results? with
    | none => some d
    | some _ => some (normalizeData d)

theorem getItemE_name {r : Record} (h : hasKey r "group_name" = true) :
    getItemE r "group_name" = .ok (nameD r) := by
  unfold hasKey at h
  unfold getItemE nameD
  cases hl : lookupVal r "group_name" with
  | none => rw [hl] at h; simp at h
  | some v => rfl

theorem optNameE_some_eq {x : Record} (h : hasKey x "group_name" = true) :
    optNameE (some x) = .ok (some (nameD x)) := by
  have hdef : optNameE (some x) =
      (getItemE x "group_name" >>= fun n => pure (some n)) := rfl
  rw [hdef, getItemE_name h]
  rfl

theorem head?_of_ne_nil {α : Type} [Inhabited α] {l : List α} (h : l ≠ []) :
    l.head? = some l.headI := by
  cases l with
  | nil => exact absurd rfl h
  | cons a t => rfl

theorem getLast?_of_ne_nil {α : Type} [Inhabited α] {l : List α} (h : l ≠ []) :
    l.getLast? = some l.getLastI := by
  rw [List.getLastI_eq_getLast?]
  cases hl : l.getLast? with
  | none => exact absurd (List.getLast?_eq_none_iff.mp hl) h
  | some a => rfl

theorem getLastI_mem_of_ne_nil {l : List Record} (h : l ≠ []) : l.getLastI ∈ l := by
  rw [List.getLastI_eq_getLast?, List.getLast?_eq_getLast_of_ne_nil h]
  exact List.getLast_mem h

theorem headI_mem_of_ne_nil {l : List Record} (h : l ≠ []) : l.headI ∈ l := by
  cases l with
  | nil => exact absurd rfl h
  | cons a t => exact List.mem_cons_self a t

theorem processDistrictInspection_ok (d : ApiData) (rs0 : List Record)
    (hres : d.results? = some rs0) (hne : rs0 ≠ [])
    (hwf : ∀ r ∈ rs0, inspWF r = true)
    (hnm : ∀ r ∈ rs0, hasKey r "group_name" = true) :
    processDistrictInspection (some d) = .ok (some ⟨inspStateSorted rs0,
      rs0.length,
      [("average_dpc_ws_visited", round2 (specMean ((normalizeRecords rs0).map
          (fun r => getNumD r "dpc_ws_visited" 0)))),
        ("average_adpc_ws_visited", round2 (specMean ((normalizeRecords rs0).map
          (fun r => getNumD r "adpc_ws_visited" 0)))),
        ("average_dpc_marks", round2 (specMean ((normalizeRecords rs0).map
          (fun r => getNumD r "dpc_marks" 0)))),
        ("average_adpc_marks", round2 (specMean ((normalizeRecords rs0).map
          (fun r => getNumD r "adpc_marks" 0)))),
        ("average_total_marks", round2 (specMean ((normalizeRecords rs0).map
          (fun r => getNumD r "total_visit_marks" 0))))],
      some (nameD (inspStateSorted rs0).headI),
      getNumD (inspStateSorted rs0).headI "total_visit_marks" 0,
      some (nameD (inspStateSorted rs0).getLastI),
      getNumD (inspStateSorted rs0).getLastI "total_visit_marks" 0,
      d.rangeStart?.getD "", d.rangeEnd?.getD ""⟩) := by
  have hunfold : inspStateSorted rs0 =
      tieBreakPass (sortDescBy inspPrimary (normalizeRecords rs0)) := rfl
  have hlen : (inspStateSorted rs0).length = rs0.length := inspStateSorted_length rs0
  have hsne : inspStateSorted rs0 ≠ [] := ne_nil_of_length_eq hlen hne
  have hsnm : ∀ r ∈ inspStateSorted rs0, hasKey r "group_name" = true :=
    fun r hr => hasKey_name_normalized hnm r (mem_inspStateSorted.mp hr)
  have hnne : normalizeRecords rs0 ≠ [] := normalizeRecords_ne_nil hne
  have hwf0 : ∀ r ∈ sortDescBy inspPrimary (normalizeRecords rs0), inspWF r = true :=
    fun r hr => inspWF_normalized hwf r ((sortDescBy_perm _ _).mem_iff.mp hr)
  have hh : hasKey (inspStateSorted rs0).headI "group_name" = true :=
    hsnm _ (headI_mem_of_ne_nil hsne)
  have hl2 : hasKey (inspStateSorted rs0).getLastI "group_name" = true :=
    hsnm _ (getLastI_mem_of_ne_nil hsne)
  simp only [processDistrictInspection, hres]
  rw [tieBreakPassE_of_wf hwf0]
  rw [← hunfold]
  simp only [exceptBind_ok]
  rw [meanE_eq (map_ne_nil_of_ne_nil _ hnne), meanE_eq (map_ne_nil_of_ne_nil _ hnne),
    meanE_eq (map_ne_nil_of_ne_nil _ hnne), meanE_eq (map_ne_nil_of_ne_nil _ hnne),
    meanE_eq (map_ne_nil_of_ne_nil _ hnne)]
  simp only [exceptBind_ok]
  rw [head?_of_ne_nil hsne, getLast?_of_ne_nil hsne]
  rw [optNameE_some_eq hh, optNameE_some_eq hl2]
  simp only [exceptBind_ok, exceptPure_eq]
  rw [normalizeRecords_length]
  rfl

theorem processDistrictWork_ok (d : ApiData) (rs0 : List Record)
    (hres : d.results? = some rs0) (hne : rs0 ≠ [])
    (hnm : ∀ r ∈ rs0, hasKey r "group_name" = true) :
    processDistrictWork (some d) = .ok (some ⟨workStateSorted rs0,
      rs0.length,
      [("average_prev_completion", round2 (specMean ((normalizeRecords rs0).map
          (fun r => getNumD r "prev_completion" 0)))),
        ("average_curr_completion", round2 (specMean ((normalizeRecords rs0).map
          (fun r => getNumD r "curr_completion" 0)))),
        ("average_marks_prev", round2 (specMean ((normalizeRecords rs0).map
          (fun r => getNumD r "marks_prev" 0)))),
        ("average_marks_curr", round2 (specMean ((normalizeRecords rs0).map
          (fun r => getNumD r "marks_curr" 0)))),
        ("average_total_marks", round2 (specMean ((normalizeRecords rs0).map
          (fun r => getNumD r "work_management_total" 0)))),
        ("state_avg_prev", round2 (d.stateAvgPrev?.getD 0)),
        ("state_avg_curr", round2 (d.stateAvgCurr?.getD 0))],
      nameD (workStateSorted rs0).headI,
      getNumD (workStateSorted rs0).headI "work_management_total" 0,
      nameD (workStateSorted rs0).getLastI,
      getNumD (workStateSorted rs0).getLastI "work_management_total" 0⟩) := by
  have hunfold : workStateSorted rs0 = sortDescBy workTotal (normalizeRecords rs0) := rfl
  have hlen : (workStateSorted rs0).length = rs0.length := workStateSorted_length rs0
  have hsne : workStateSorted rs0 ≠ [] := ne_nil_of_length_eq hlen hne
  have hsnm : ∀ r ∈ workStateSorted rs0, hasKey r "group_name" = true :=
    fun r hr => hasKey_name_normalized hnm r (mem_workStateSorted.mp hr)
  have hnne : normalizeRecords rs0 ≠ [] := normalizeRecords_ne_nil hne
  have hh : hasKey (workStateSorted rs0).headI "group_name" = true :=
    hsnm _ (headI_mem_of_ne_nil hsne)
  have hl2 : hasKey (workStateSorted rs0).getLastI "group_name" = true :=
    hsnm _ (getLastI_mem_of_ne_nil hsne)
  simp only [processDistrictWork, hres]
  rw [← hunfold]
  rw [meanE_eq (map_ne_nil_of_ne_nil _ hnne), meanE_eq (map_ne_nil_of_ne_nil _ hnne),
    meanE_eq (map_ne_nil_of_ne_nil _ hnne), meanE_eq (map_ne_nil_of_ne_nil _ hnne),
    meanE_eq (map_ne_nil_of_ne_nil _ hnne), headE_eq hsne, lastE_eq hsne]
  simp only [exceptBind_ok]
  rw [getItemE_name hh, getItemE_name hl2]
  simp only [exceptBind_ok, exceptPure_eq]
  rw [normalizeRecords_length]

theorem processDistrictZero_ok (d : ApiData) (rs0 : List Record)
    (hres : d.results? = some rs0) (hne : rs0 ≠ [])
    (hnm : ∀ r ∈ rs0, hasKey r "group_name" = true) :
    processDistrictZero (some d) = .ok (some ⟨zeroStateSorted rs0,
      rs0.length,
      [("average_total_muster_issued", round2 (specMean ((normalizeRecords rs0).map
          (fun r => getNumD r "total_muster_issued" 0)))),
        ("average_total_zero_attendance", round2 (specMean ((normalizeRecords rs0).map
          (fun r => getNumD r "total_zero_attendance" 0)))),
        ("average_zero_attendance_percentage", round2 (specMean ((normalizeRecords rs0).map
          (fun r => getNumD r "zero_attendance_percentage" 0)))),
        ("average_zero_muster_marks", round2 (specMean ((normalizeRecords rs0).map
          (fun r => getNumD r "zero_muster_marks" 0))))],
      some (nameD (zeroStateSorted rs0).headI),
      getNumD (zeroStateSorted rs0).headI "zero_attendance_percentage" 0,
      some (nameD (zeroStateSorted rs0).getLastI),
      getNumD (zeroStateSorted rs0).getLastI "zero_attendance_percentage" 0⟩) := by
  have hunfold : zeroStateSorted rs0 = sortAscBy zeroPct (normalizeRecords rs0) := rfl
  have hlen : (zeroStateSorted rs0).length = rs0.length := zeroStateSorted_length rs0
  have hsne : zeroStateSorted rs0 ≠ [] := ne_nil_of_length_eq hlen hne
  have hsnm : ∀ r ∈ zeroStateSorted rs0, hasKey r "group_name" = true :=
    fun r hr => hasKey_name_normalized hnm r (mem_zeroStateSorted.mp hr)
  have hnne : normalizeRecords rs0 ≠ [] := normalizeRecords_ne_nil hne
  have hh : hasKey (zeroStateSorted rs0).headI "group_name" = true :=
    hsnm _ (headI_mem_of_ne_nil hsne)
  have hl2 : hasKey (zeroStateSorted rs0).getLastI "group_name" = true :=
    hsnm _ (getLastI_mem_of_ne_nil hsne)
  simp only [processDistrictZero, hres]
  rw [← hunfold]
  rw [meanE_eq (map_ne_nil_of_ne_nil _ hnne), meanE_eq (map_ne_nil_of_ne_nil _ hnne),
    meanE_eq (map_ne_nil_of_ne_nil _ hnne), meanE_eq (map_ne_nil_of_ne_nil _ hnne)]
  simp only [exceptBind_ok]
  rw [head?_of_ne_nil hsne, getLast?_of_ne_nil hsne]
  rw [optNameE_some_eq hh, optNameE_some_eq hl2]
  simp only [exceptBind_ok, exceptPure_eq]
  rw [normalizeRecords_length]
  rfl

/- ### C6 -/

/-- C6: every average field in the AggregateSummary emitted by any of the
six aggregators — the three state-level and the three entity-level
(district) ones — equals the arithmetic mean (`specMean`, sum over count)
of the corresponding field across the processed collection: the records as
normalized in place before any averaging, absent fields contributing the
source's `get` default 0, rounded to 2 decimal places. The work-management
conjuncts state the full averages dict: its five AggregateSummary fields
are rounded means, and its two remaining entries are the §4.3 passthrough
scalars (`state_avg_prev`/`state_avg_curr`, rounded source-supplied
values, not collection averages and not AggregateSummary fields). -/
theorem claim6_averages_are_rounded_means :
    (∀ (d : ApiData) (rs0 : List Record), d.results? = some rs0 → rs0 ≠ [] →
      (∀ r ∈ rs0, inspWF r = true) →
      (∀ r ∈ rs0, hasKey r "group_name" = true) →
      avgsOfInsp (processStateInspection (some d)) =
        [("dpc_ws_visited", round2 (specMean ((normalizeRecords rs0).map
            (fun r => getNumD r "dpc_ws_visited" 0)))),
          ("adpc_ws_visited", round2 (specMean ((normalizeRecords rs0).map
            (fun r => getNumD r "adpc_ws_visited" 0)))),
          ("dpc_marks", round2 (specMean ((normalizeRecords rs0).map
            (fun r => getNumD r "dpc_marks" 0)))),
          ("adpc_marks", round2 (specMean ((normalizeRecords rs0).map
            (fun r => getNumD r "adpc_marks" 0)))),
          ("total_marks", round2 (specMean ((normalizeRecords rs0).map
            (fun r => getNumD r "total_visit_marks" 0))))]) ∧
    (∀ (d : ApiData) (rs0 : List Record), d.results? = some rs0 → rs0 ≠ [] →
      (∀ r ∈ rs0, hasKey r "group_name" = true) →
      avgsOfWork (processStateWork (some d)) =
        [("prev_completion", round2 (specMean ((normalizeRecords rs0).map
            (fun r => getNumD r "prev_completion" 0)))),
          ("curr_completion", round2 (specMean ((normalizeRecords rs0).map
            (fun r => getNumD r "curr_completion" 0)))),
          ("marks_prev", round2 (specMean ((normalizeRecords rs0).map
            (fun r => getNumD r "marks_prev" 0)))),
          ("marks_curr", round2 (specMean ((normalizeRecords rs0).map
            (fun r => getNumD r "marks_curr" 0)))),
          ("total_marks", round2 (specMean ((normalizeRecords rs0).map
            (fun r => getNumD r "work_management_total" 0)))),
          ("state_avg_prev", round2 (d.stateAvgPrev?.getD 0)),
          ("state_avg_curr", round2 (d.stateAvgCurr?.getD 0))]) ∧
    (∀ (d : ApiData) (rs0 : List Record), d.results? = some rs0 → rs0 ≠ [] →
      (∀ r ∈ rs0, hasKey r "group_name" = true) →
      avgsOfZero (processStateZero (some d)) =
        [("total_muster_issued", round2 (specMean ((normalizeRecords rs0).map
            (fun r => getNumD r "total_muster_issued" 0)))),
          ("total_zero_attendance", round2 (specMean ((normalizeRecords rs0).map
            (fun r => getNumD r "total_zero_attendance" 0)))),
          ("zero_attendance_percentage", round2 (specMean ((normalizeRecords rs0).map
            (fun r => getNumD r "zero_attendance_percentage" 0)))),
          ("zero_muster_marks", round2 (specMean ((normalizeRecords rs0).map
            (fun r => getNumD r "zero_muster_marks" 0))))]) ∧
    (∀ (d : ApiData) (rs0 : List Record), d.results? = some rs0 → rs0 ≠ [] →
      (∀ r ∈ rs0, inspWF r = true) →
      (∀ r ∈ rs0, hasKey r "group_name" = true) →
      avgsOfInspD (processDistrictInspection (some d)) =
        [("average_dpc_ws_visited", round2 (specMean ((normalizeRecords rs0).map
            (fun r => getNumD r "dpc_ws_visited" 0)))),
          ("average_adpc_ws_visited", round2 (specMean ((normalizeRecords rs0).map
            (fun r => getNumD r "adpc_ws_visited" 0)))),
          ("average_dpc_marks", round2 (specMean ((normalizeRecords rs0).map
            (fun r => getNumD r "dpc_marks" 0)))),
          ("average_adpc_marks", round2 (specMean ((normalizeRecords rs0).map
            (fun r => getNumD r "adpc_marks" 0)))),
          ("average_total_marks", round2 (specMean ((normalizeRecords rs0).map
            (fun r => getNumD r "total_visit_marks" 0))))]) ∧
    (∀ (d : ApiData) (rs0 : List Record), d.results? = some rs0 → rs0 ≠ [] →
      (∀ r ∈ rs0, hasKey r "group_name" = true) →
      avgsOfWorkD (processDistrictWork (some d)) =
        [("average_prev_completion", round2 (specMean ((normalizeRecords rs0).map
            (fun r => getNumD r "prev_completion" 0)))),
          ("average_curr_completion", round2 (specMean ((normalizeRecords rs0).map
            (fun r => getNumD r "curr_completion" 0)))),
          ("average_marks_prev", round2 (specMean ((normalizeRecords rs0).map
            (fun r => getNumD r "marks_prev" 0)))),
          ("average_marks_curr", round2 (specMean ((normalizeRecords rs0).map
            (fun r => getNumD r "marks_curr" 0)))),
          ("average_total_marks", round2 (specMean ((normalizeRecords rs0).map
            (fun r => getNumD r "work_management_total" 0)))),
          ("state_avg_prev", round2 (d.stateAvgPrev?.getD 0)),
          ("state_avg_curr", round2 (d.stateAvgCurr?.getD 0))]) ∧
    (∀ (d : ApiData) (rs0 : List Record), d.results? = some rs0 → rs0 ≠ [] →
      (∀ r ∈ rs0, hasKey r "group_name" = true) →
      avgsOfZeroD (processDistrictZero (some d)) =
        [("average_total_muster_issued", round2 (specMean ((normalizeRecords rs0).map
            (fun r => getNumD r "total_muster_issued" 0)))),
          ("average_total_zero_attendance", round2 (specMean ((normalizeRecords rs0).map
            (fun r => getNumD r "total_zero_attendance" 0)))),
          ("average_zero_attendance_percentage", round2 (specMean ((normalizeRecords rs0).map
            (fun r => getNumD r "zero_attendance_percentage" 0)))),
          ("average_zero_muster_marks", round2 (specMean ((normalizeRecords rs0).map
            (fun r => getNumD r "zero_muster_marks" 0))))]) := by
  refine ⟨?_, ?_, ?_, ?_, ?_, ?_⟩
  · intro d rs0 hres hne hwf hnm
    rw [processStateInspection_ok d rs0 hres hne hwf hnm]
    rfl
  · intro d rs0 hres hne hnm
    rw [processStateWork_ok d rs0 hres hne hnm]
    rfl
  · intro d rs0 hres hne hnm
    rw [processStateZero_ok d rs0 hres hne hnm]
    rfl
  · intro d rs0 hres hne hwf hnm
    rw [processDistrictInspection_ok d rs0 hres hne hwf hnm]
    rfl
  · intro d rs0 hres hne hnm
    rw [processDistrictWork_ok d rs0 hres hne hnm]
    rfl
  · intro d rs0 hres hne hnm
    rw [processDistrictZero_ok d rs0 hres hne hnm]
    rfl

/-- Witness for C6 at the concrete two-record payload: the work-management
state conjunct (with its passthrough entries) and the zero-muster district
conjunct, hypotheses discharged concretely. -/
theorem claim6_witness :
    avgsOfWork (processStateWork (some wdata)) =
      [("prev_completion", round2 (specMean ((normalizeRecords [wrec1, wrec2]).map
          (fun r => getNumD r "prev_completion" 0)))),
        ("curr_completion", round2 (specMean ((normalizeRecords [wrec1, wrec2]).map
          (fun r => getNumD r "curr_completion" 0)))),
        ("marks_prev", round2 (specMean ((normalizeRecords [wrec1, wrec2]).map
          (fun r => getNumD r "marks_prev" 0)))),
        ("marks_curr", round2 (specMean ((normalizeRecords [wrec1, wrec2]).map
          (fun r => getNumD r "marks_curr" 0)))),
        ("total_marks", round2 (specMean ((normalizeRecords [wrec1, wrec2]).map
          (fun r => getNumD r "work_management_total" 0)))),
        ("state_avg_prev", round2 ((Option.none : Option ℚ).getD 0)),
        ("state_avg_curr", round2 ((Option.none : Option ℚ).getD 0))] ∧
    avgsOfZeroD (processDistrictZero (some wdata)) =
      [("average_total_muster_issued", round2 (specMean ((normalizeRecords [wrec1, wrec2]).map
          (fun r => getNumD r "total_muster_issued" 0)))),
        ("average_total_zero_attendance", round2 (specMean ((normalizeRecords [wrec1, wrec2]).map
          (fun r => getNumD r "total_zero_attendance" 0)))),
        ("average_zero_attendance_percentage", round2 (specMean ((normalizeRecords [wrec1, wrec2]).map
          (fun r => getNumD r "zero_attendance_percentage" 0)))),
        ("average_zero_muster_marks", round2 (specMean ((normalizeRecords [wrec1, wrec2]).map
          (fun r => getNumD r "zero_muster_marks" 0))))] :=
  ⟨claim6_averages_are_rounded_means.2.1 wdata [wrec1, wrec2] rfl (by decide)
      (by decide),
    claim6_averages_are_rounded_means.2.2.2.2.2 wdata [wrec1, wrec2] rfl (by decide)
      (by decide)⟩

/- ### C10 -/

theorem exceptBind_error {α β : Type} (e : PyErr) (f : α → Except PyErr β) :
    (Except.error e >>= f) = (Except.error e : Except PyErr β) := rfl

theorem findTargetE_mem {dist : String} {l : List Record} {r : Record}
    (h : findTargetE dist l = .ok (some r)) : r ∈ l := by
  induction l with
  | nil => simp [findTargetE, exceptPure_eq] at h
  | cons x rest ih =>
    unfold findTargetE at h
    cases hx : getItemE x "group_name" with
    | error e =>
      rw [hx, exceptBind_error] at h
      cases h
    | ok n =>
      rw [hx, exceptBind_ok] at h
      by_cases hv : valEq n (.str dist) = true
      · rw [if_pos hv] at h
        simp only [exceptPure_eq, Except.ok.injEq, Option.some.injEq] at h
        rw [← h]
        exact List.mem_cons_self x rest
      · rw [if_neg hv] at h
        exact List.mem_cons_of_mem _ (ih h)

/-- C10: every aggregator — state and entity level, in all three
pipelines — normalizes by mutating the caller's record dicts in place.
First conjunct: after any of the six aggregators ran, the caller's payload
holds the normalized records. Next three: each state aggregator's returned
top and bottom records are elements of that same normalized collection.
Next three: each district aggregator's returned sorted-blocks list is a
permutation of the normalized collection (the embedded records are the
input's records, not fresh values). Last: the orchestrator's
target-district lookup over the post-call state payload yields a record
already carrying normalized (rounded) values. -/
theorem claim10_in_place_normalization :
    (∀ (d : ApiData) (rs0 : List Record), d.results? = some rs0 →
      processStateInspectionPost (some d) = some (normalizeData d) ∧
      processStateWorkPost (some d) = some (normalizeData d) ∧
      processStateZeroPost (some d) = some (normalizeData d) ∧
      processDistrictInspectionPost (some d) = some (normalizeData d) ∧
      processDistrictWorkPost (some d) = some (normalizeData d) ∧
      processDistrictZeroPost (some d) = some (normalizeData d) ∧
      (normalizeData d).results? = some (normalizeRecords rs0)) ∧
    (∀ (d : ApiData) (rs0 : List Record), d.results? = some rs0 → rs0 ≠ [] →
      (∀ r ∈ rs0, inspWF r = true) → (∀ r ∈ rs0, hasKey r "group_name" = true) →
      isOkSomeInsp (processStateInspection (some d)) = true ∧
      topOfInsp (processStateInspection (some d)) ∈ normalizeRecords rs0 ∧
      bottomOfInsp (processStateInspection (some d)) ∈ normalizeRecords rs0) ∧
    (∀ (d : ApiData) (rs0 : List Record), d.results? = some rs0 → rs0 ≠ [] →
      (∀ r ∈ rs0, hasKey r "group_name" = true) →
      isOkSomeWork (processStateWork (some d)) = true ∧
      topOfWork (processStateWork (some d)) ∈ normalizeRecords rs0 ∧
      bottomOfWork (processStateWork (some d)) ∈ normalizeRecords rs0) ∧
    (∀ (d : ApiData) (rs0 : List Record), d.results? = some rs0 → rs0 ≠ [] →
      (∀ r ∈ rs0, hasKey r "group_name" = true) →
      isOkSomeZero (processStateZero (some d)) = true ∧
      topOfZero (processStateZero (some d)) ∈ normalizeRecords rs0 ∧
      bottomOfZero (processStateZero (some d)) ∈ normalizeRecords rs0) ∧
    (∀ (d : ApiData) (rs0 : List Record), d.results? = some rs0 → rs0 ≠ [] →
      (∀ r ∈ rs0, inspWF r = true) → (∀ r ∈ rs0, hasKey r "group_name" = true) →
      isOkSomeInspD (processDistrictInspection (some d)) = true ∧
      (blocksOfInspD (processDistrictInspection (some d))).Perm
        (normalizeRecords rs0)) ∧
    (∀ (d : ApiData) (rs0 : List Record), d.results? = some rs0 → rs0 ≠ [] →
      (∀ r ∈ rs0, hasKey r "group_name" = true) →
      isOkSomeWorkD (processDistrictWork (some d)) = true ∧
      (blocksOfWorkD (processDistrictWork (some d))).Perm
        (normalizeRecords rs0)) ∧
    (∀ (d : ApiData) (rs0 : List Record), d.results? = some rs0 → rs0 ≠ [] →
      (∀ r ∈ rs0, hasKey r "group_name" = true) →
      isOkSomeZeroD (processDistrictZero (some d)) = true ∧
      (blocksOfZeroD (processDistrictZero (some d))).Perm
        (normalizeRecords rs0)) ∧
    (∀ (dist : String) (l : List Record) (r : Record),
      findTargetE dist (normalizeRecords l) = .ok (some r) →
      normalizeRecord r = r) := by
  refine ⟨?_, ?_, ?_, ?_, ?_, ?_, ?_, ?_⟩
  · intro d rs0 hres
    refine ⟨?_, ?_, ?_, ?_, ?_, ?_, ?_⟩
    · simp only [processStateInspectionPost, hres]
    · simp only [processStateWorkPost, hres]
    · simp only [processStateZeroPost, hres]
    · simp only [processDistrictInspectionPost, hres]
    · simp only [processDistrictWorkPost, hres]
    · simp only [processDistrictZeroPost, hres]
    · simp only [normalizeData, hres]
      rfl
  · intro d rs0 hres hne hwf hnm
    rw [processStateInspection_ok d rs0 hres hne hwf hnm]
    have hsne : inspStateSorted rs0 ≠ [] :=
      ne_nil_of_length_eq (inspStateSorted_length rs0) hne
    refine ⟨rfl, ?_, ?_⟩
    · show (inspStateSorted rs0).headI ∈ normalizeRecords rs0
      exact mem_inspStateSorted.mp (headI_mem_of_ne_nil hsne)
    · show (inspStateSorted rs0).getLastI ∈ normalizeRecords rs0
      exact mem_inspStateSorted.mp (getLastI_mem_of_ne_nil hsne)
  · intro d rs0 hres hne hnm
    rw [processStateWork_ok d rs0 hres hne hnm]
    have hsne : workStateSorted rs0 ≠ [] :=
      ne_nil_of_length_eq (workStateSorted_length rs0) hne
    refine ⟨rfl, ?_, ?_⟩
    · show (workStateSorted rs0).headI ∈ normalizeRecords rs0
      exact mem_workStateSorted.mp (headI_mem_of_ne_nil hsne)
    · show (workStateSorted rs0).getLastI ∈ normalizeRecords rs0
      exact mem_workStateSorted.mp (getLastI_mem_of_ne_nil hsne)
  · intro d rs0 hres hne hnm
    rw [processStateZero_ok d rs0 hres hne hnm]
    have hsne : zeroStateSorted rs0 ≠ [] :=
      ne_nil_of_length_eq (zeroStateSorted_length rs0) hne
    refine ⟨rfl, ?_, ?_⟩
    · show (zeroStateSorted rs0).headI ∈ normalizeRecords rs0
      exact mem_zeroStateSorted.mp (headI_mem_of_ne_nil hsne)
    · show (zeroStateSorted rs0).getLastI ∈ normalizeRecords rs0
      exact mem_zeroStateSorted.mp (getLastI_mem_of_ne_nil hsne)
  · intro d rs0 hres hne hwf hnm
    rw [processDistrictInspection_ok d rs0 hres hne hwf hnm]
    refine ⟨rfl, ?_⟩
    show (inspStateSorted rs0).Perm (normalizeRecords rs0)
    exact (tieBreakPass_perm _).trans (sortDescBy_perm _ _)
  · intro d rs0 hres hne hnm
    rw [processDistrictWork_ok d rs0 hres hne hnm]
    refine ⟨rfl, ?_⟩
    show (workStateSorted rs0).Perm (normalizeRecords rs0)
    exact sortDescBy_perm _ _
  · intro d rs0 hres hne hnm
    rw [processDistrictZero_ok d rs0 hres hne hnm]
    refine ⟨rfl, ?_⟩
    show (zeroStateSorted rs0).Perm (normalizeRecords rs0)
    exact sortAscBy_perm _ _
  · intro dist l r h
    exact normalizeRecord_of_mem (findTargetE_mem h)

/-- Witness for C10 at the concrete two-record payload: the post-call
payloads of all six aggregators, the inspection state top/bottom
membership, the work-management district blocks permutation, and the
target lookup over normalized records. -/
theorem claim10_witness :
    (processStateInspectionPost (some wdata) = some (normalizeData wdata) ∧
      processStateWorkPost (some wdata) = some (normalizeData wdata) ∧
      processStateZeroPost (some wdata) = some (normalizeData wdata) ∧
      processDistrictInspectionPost (some wdata) = some (normalizeData wdata) ∧
      processDistrictWorkPost (some wdata) = some (normalizeData wdata) ∧
      processDistrictZeroPost (some wdata) = some (normalizeData wdata) ∧
      (normalizeData wdata).results? = some (normalizeRecords [wrec1, wrec2])) ∧
    (isOkSomeInsp (processStateInspection (some wdata)) = true ∧
      topOfInsp (processStateInspection (some wdata)) ∈ normalizeRecords [wrec1, wrec2] ∧
      bottomOfInsp (processStateInspection (some wdata)) ∈ normalizeRecords [wrec1, wrec2]) ∧
    (isOkSomeWorkD (processDistrictWork (some wdata)) = true ∧
      (blocksOfWorkD (processDistrictWork (some wdata))).Perm
        (normalizeRecords [wrec1, wrec2])) ∧
    normalizeRecord wrec1 = wrec1 :=
  ⟨claim10_in_place_normalization.1 wdata [wrec1, wrec2] rfl,
    claim10_in_place_normalization.2.1 wdata [wrec1, wrec2] rfl (by decide)
      (by decide) (by decide),
    claim10_in_place_normalization.2.2.2.2.2.1 wdata [wrec1, wrec2] rfl (by decide)
      (by decide),
    claim10_in_place_normalization.2.2.2.2.2.2.2 "P" [wrec1] wrec1 rfl⟩

end Nrega
